import Mathlib

/-!
# idawax: instruction classifiers, cross-reference sanitizer, alignment detector,
# operand tag detector and function boundary repairer

A shallow embedding of `src/ida_extensions.cpp` and of `extend_bad_function_end`
from `src/main.cpp`.

The plugin works on the analysis database of the host disassembler.  The database
is modelled by the record `Database`: per-address flags, the instruction decoder,
the function table, the data cross-reference edges, comments, and a chronological
log of every mutation request and message the plugin issues.  Addresses are the
32-bit `ea_t` of the host (the source masks with `0xFFFFFFF0`), kept as natural
numbers with explicit reduction modulo `2^32` where the source does arithmetic.
-/

namespace IdaWax

/-! ## Addresses and C strings -/

/-- An address of the analysed image (`ea_t`, 32 bits wide). -/
abbrev ea_t := Nat

/-- The invalid-address sentinel of the host (`BADADDR`, all 32 bits set). -/
def BADADDR : ea_t := 0xFFFFFFFF

/-- Number of distinct 32-bit addresses; address arithmetic is reduced modulo it. -/
def EA_SPACE : Nat := 0x100000000

/-- The character a C string holds at index `i`: the terminating NUL once the
text is over. -/
def c_at (s : List Char) (i : Nat) : Char := s.getD i (Char.ofNat 0)

/-- Whether the text `needle` occurs at the very start of `hay`. -/
def starts_with : List Char → List Char → Bool
  | _, [] => true
  | [], _ :: _ => false
  | h :: hs, n :: ns => h == n && starts_with hs ns

/-- The C library `strstr`: offset of the first occurrence of `needle` in `hay`
(the returned pointer minus `hay`), absent when there is none (NULL). -/
def strstr : List Char → List Char → Option Nat
  | [], needle => if starts_with [] needle then some 0 else none
  | h :: hs, needle =>
    if starts_with (h :: hs) needle then some 0
    else (strstr hs needle).map (fun k => k + 1)

/-- The C library `strcmp`, reduced to what the source uses: whether it returns 0. -/
def strcmp_eq (a b : List Char) : Bool := a == b

/-! ## Flags, instructions, functions -/

/-- Item class bits of a flags word (`MS_CLS`). -/
inductive item_class where
  | unk
  | tail
  | data
  | code
deriving DecidableEq, Repr

/-- Data type bits of a flags word (`DT_TYPE`), as far as the source looks. -/
inductive data_type where
  | other
  | struct_item
  | align
deriving DecidableEq, Repr

/-- Representation of one operand in a flags word (`MS_0TYPE`, `MS_1TYPE`). -/
inductive op_type where
  | void
  | num
  | chr
  | off
  | other
deriving DecidableEq, Repr

/-- The per-address flags word (`flags_t`), one field per bit group the source reads. -/
structure flags_t where
  cls : item_class
  dtype : data_type
  cmt : Bool
  ref : Bool
  op0 : op_type
  op1 : op_type
deriving DecidableEq, Repr

/-- Flags of an unexplored byte. -/
def FF_UNK : flags_t := ⟨item_class.unk, data_type.other, false, false, op_type.void, op_type.void⟩

def is_code (F : flags_t) : Bool := F.cls == item_class.code
def is_data (F : flags_t) : Bool := F.cls == item_class.data
def is_align (F : flags_t) : Bool := is_data F && F.dtype == data_type.align
def is_struct (F : flags_t) : Bool := is_data F && F.dtype == data_type.struct_item
def has_cmt (F : flags_t) : Bool := F.cmt
def has_xref (F : flags_t) : Bool := F.ref
def is_off0 (F : flags_t) : Bool := F.op0 == op_type.off
def is_off1 (F : flags_t) : Bool := F.op1 == op_type.off

/-- One operand of a decoded instruction (`op_t`): resolved address and raw value. -/
structure op_t where
  addr : Nat
  value : Nat
deriving DecidableEq, Repr

/-- A decoded instruction (`insn_t`): its address, canonical mnemonic and operands. -/
structure insn_t where
  ea : ea_t
  canon_mnem : List Char
  ops : Nat → op_t

def insn_t.get_canon_mnem (ins : insn_t) : List Char := ins.canon_mnem

/-- A function of the database (`func_t`): the address range from `start_ea`
up to, not including, `end_ea`. -/
structure func_t where
  start_ea : ea_t
  end_ea : ea_t
deriving DecidableEq, Repr

/-- A place of the listing (`idaplace_t`): an address and a line number at it. -/
structure idaplace_t where
  ea : ea_t
  lnnum : Nat
deriving DecidableEq, Repr

/-! ## The analysis database -/

/-- The messages the modelled functions print with `msg`, by format string. -/
inductive Message where
  | removed_bad_xref (src dst : ea_t)
  | creating_alignment (ea : ea_t)
  | found_tag (tag : List Char) (ea : ea_t)
  | removed_bad_function (ea : ea_t)
deriving DecidableEq, Repr

/-- A mutation request sent to the database, or a message sent to the log sink. -/
inductive Call where
  | del_dref (src dst : ea_t)
  | op_num (ea : ea_t) (n : Nat)
  | op_chr (ea : ea_t) (n : Nat)
  | create_align (ea : ea_t) (length : Nat) (alignment : Nat)
  | del_items (ea : ea_t) (nbytes : Nat)
  | del_func (ea : ea_t)
  | del_global_name (ea : ea_t)
  | set_func_end (ea : ea_t) (newend : ea_t)
  | msg (m : Message)
deriving DecidableEq, Repr

/-- The analysis database as the plugin sees it.

* `flags`, `cmt`, `alignment`, `switch_parent` answer `get_flags`, `get_cmt`,
  `get_alignment`, `get_switch_parent`;
* `decode` answers `decode_insn`: the returned length (0 when decoding fails) and
  the instruction record left in the output argument;
* `align_insn` answers `is_align_insn`: the length of the padding instruction at
  the address, 0 when there is none;
* `place_next`, `place_prev` answer `idaplace_t::next` and `idaplace_t::prev`;
* `funcs` is the function table, `drefs` the data cross-reference edges
  `(source, target)`;
* `func_does_end` and `is_func_end_insn` are the two helpers `main.cpp` calls
  whose bodies are not part of the source files, taken as given;
* `accept` is the host's verdict on a request whose result the source inspects
  (`create_align`, `del_func`, `set_func_end`), given the log so far;
* `log` records every request and message in the order issued. -/
structure Database where
  flags : ea_t → flags_t
  cmt : ea_t → List Char
  alignment : ea_t → Nat
  switch_parent : ea_t → ea_t
  decode : ea_t → Nat × insn_t
  align_insn : ea_t → Nat
  place_next : idaplace_t → idaplace_t
  place_prev : idaplace_t → idaplace_t
  funcs : List func_t
  drefs : List (ea_t × ea_t)
  func_does_end : func_t → Bool
  is_func_end_insn : insn_t → Bool
  accept : List Call → Call → Bool
  log : List Call

def get_flags (db : Database) (ea : ea_t) : flags_t := db.flags ea
def get_cmt (db : Database) (ea : ea_t) : List Char := db.cmt ea
def get_alignment (db : Database) (ea : ea_t) : Nat := db.alignment ea
def get_switch_parent (db : Database) (ea : ea_t) : ea_t := db.switch_parent ea
def decode_insn (db : Database) (ea : ea_t) : Nat × insn_t := db.decode ea
def is_align_insn (db : Database) (ea : ea_t) : Nat := db.align_insn ea

/-- Whether the function `f` owns the address `ea`. -/
def func_contains (f : func_t) (ea : ea_t) : Bool := f.start_ea ≤ ea && ea < f.end_ea

/-- Host query `get_func`: the function owning `ea`, if any. -/
def get_func (db : Database) (ea : ea_t) : Option func_t :=
  db.funcs.find? (fun f => func_contains f ea)

/-- Host query `get_next_func`: the function with the least start above `ea`,
absent (a null pointer) when no function starts above `ea`. -/
def get_next_func (db : Database) (ea : ea_t) : Option func_t :=
  (db.funcs.filter (fun f => ea < f.start_ea)).foldl
    (fun acc f => match acc with
      | none => some f
      | some g => if f.start_ea < g.start_ea then some f else some g) none

/-- Host query `is_same_func`: `ea1` lies in a function and that function owns `ea2`. -/
def is_same_func (db : Database) (ea1 ea2 : ea_t) : Bool :=
  match get_func db ea1 with
  | none => false
  | some f => func_contains f ea2

/-- Sources of the data references to `dst` that lie above `cur`. -/
def drefs_above (db : Database) (dst : ea_t) (cur : Option ea_t) : List ea_t :=
  (db.drefs.filter (fun e => e.2 == dst &&
    (match cur with
      | none => true
      | some c => c < e.1))).map Prod.fst

/-- Host query `get_first_dref_to`: the lowest source referencing `dst`,
`BADADDR` when there is none. -/
def get_first_dref_to (db : Database) (dst : ea_t) : ea_t :=
  (drefs_above db dst none).foldl min BADADDR

/-- Host query `get_next_dref_to`: the lowest source above `cur` referencing `dst`,
`BADADDR` when there is none. -/
def get_next_dref_to (db : Database) (dst cur : ea_t) : ea_t :=
  (drefs_above db dst (some cur)).foldl min BADADDR

/-- Append one entry to the log. -/
def record (db : Database) (c : Call) : Database := { db with log := db.log ++ [c] }

/-- Host call `msg`. -/
def msg (db : Database) (m : Message) : Database := record db (Call.msg m)

/-- Host call `del_dref`: the edge from `src` to `dst` is removed. -/
def del_dref (db : Database) (src dst : ea_t) : Database :=
  record { db with drefs := db.drefs.filter (fun e => !(e.1 == src && e.2 == dst)) }
    (Call.del_dref src dst)

/-- The flags word with operand `n` given the representation `t`. -/
def set_op_type (F : flags_t) (n : Nat) (t : op_type) : flags_t :=
  if n = 0 then { F with op0 := t }
  else if n = 1 then { F with op1 := t }
  else F

/-- Host call `op_num`: operand `n` at `ea` becomes a plain number. -/
def op_num (db : Database) (ea : ea_t) (n : Nat) : Database :=
  record { db with flags := fun a => if a = ea then set_op_type (db.flags a) n op_type.num
                                     else db.flags a }
    (Call.op_num ea n)

/-- Host call `op_chr`: operand `n` at `ea` becomes a character literal. -/
def op_chr (db : Database) (ea : ea_t) (n : Nat) : Database :=
  record { db with flags := fun a => if a = ea then set_op_type (db.flags a) n op_type.chr
                                     else db.flags a }
    (Call.op_chr ea n)

/-- Host call `create_align`: when the host accepts, `ea` becomes the head of an
alignment item with the given exponent; the result says whether it accepted. -/
def create_align (db : Database) (ea : ea_t) (length alignment : Nat) : Bool × Database :=
  let c := Call.create_align ea length alignment
  if db.accept db.log c then
    (true, record { db with
      flags := fun a => if a = ea then
          { db.flags a with cls := item_class.data, dtype := data_type.align }
        else db.flags a,
      alignment := fun a => if a = ea then alignment else db.alignment a } c)
  else (false, record db c)

/-- Host call `del_items`: the bytes from `ea` on, `nbytes` of them, become unexplored. -/
def del_items (db : Database) (ea : ea_t) (nbytes : Nat) : Database :=
  record { db with
    flags := fun a => if ea ≤ a ∧ a < ea + nbytes then
        { db.flags a with cls := item_class.unk, dtype := data_type.other,
                          op0 := op_type.void, op1 := op_type.void }
      else db.flags a } (Call.del_items ea nbytes)

/-- Host call `del_func`: when the host accepts, the function owning `ea` is removed. -/
def del_func (db : Database) (ea : ea_t) : Bool × Database :=
  let c := Call.del_func ea
  if db.accept db.log c then
    (true, record { db with funcs := db.funcs.filter (fun f => !func_contains f ea) } c)
  else (false, record db c)

/-- Host call `del_global_name`. -/
def del_global_name (db : Database) (ea : ea_t) : Database :=
  record db (Call.del_global_name ea)

/-- Host call `set_func_end`: when the host accepts, the function owning `ea`
ends at `newend`. -/
def set_func_end (db : Database) (ea newend : ea_t) : Bool × Database :=
  let c := Call.set_func_end ea newend
  if db.accept db.log c then
    (true, record { db with funcs := db.funcs.map (fun f =>
      if func_contains f ea then { f with end_ea := newend } else f) } c)
  else (false, record db c)

/-! ## Instructions (`#pragma region Instructions`) -/

def is_jxx_insn (ins : insn_t) : Bool :=
  c_at ins.get_canon_mnem 0 == 'j'

def is_jxx_insn_ea (db : Database) (ea : ea_t) : Bool :=
  let r := decode_insn db ea
  r.1 != 0 && is_jxx_insn r.2

def is_jcc_insn (ins : insn_t) : Bool :=
  let mnem := ins.get_canon_mnem
  c_at mnem 0 == 'j' && c_at mnem 1 != 'm'

def is_jcc_insn_ea (db : Database) (ea : ea_t) : Bool :=
  let r := decode_insn db ea
  r.1 != 0 && is_jcc_insn r.2

def is_jmp_insn (ins : insn_t) : Bool :=
  strcmp_eq ins.get_canon_mnem ['j', 'm', 'p']

def is_jmp_insn_ea (db : Database) (ea : ea_t) : Bool :=
  let r := decode_insn db ea
  r.1 != 0 && is_jmp_insn r.2

/-- The marker text a jump-table comment contains. -/
def TABLE_FOR_SWITCH : List Char :=
  ['t', 'a', 'b', 'l', 'e', ' ', 'f', 'o', 'r', ' ', 's', 'w', 'i', 't', 'c', 'h']

def is_jmp_table (db : Database) (ea : ea_t) : Bool :=
  let flags := get_flags db ea
  if !is_data flags || !has_cmt flags || !has_xref flags then false
  else
    let cmt := get_cmt db ea
    (strstr cmt TABLE_FOR_SWITCH).isSome

def is_retn_insn (ins : insn_t) : Bool :=
  let mnem := ins.get_canon_mnem
  strstr mnem ['r', 'e', 't'] == some 0

def is_retn_insn_ea (db : Database) (ea : ea_t) : Bool :=
  let r := decode_insn db ea
  r.1 != 0 && is_retn_insn r.2

/-! ## Functions (`#pragma region Functions`) -/

def get_func_end_insn (db : Database) (func : func_t) : insn_t :=
  let end_place := db.place_prev ⟨func.end_ea, 0⟩
  (decode_insn db end_place.ea).2

def is_func_truncated (db : Database) (func : func_t) : Bool :=
  let end_insn := get_func_end_insn db func
  !is_retn_insn end_insn && !is_jmp_insn_ea db end_insn.ea

/-! ## Cross references (`#pragma region XRefs`) -/

def del_dref_ex (db : Database) (src dst : ea_t) : Database :=
  -- remove the reference
  let db := del_dref db src dst
  let db := msg db (Message.removed_bad_xref src dst)
  -- repair referencing instruction (or data) by converting bad offsets to number types
  let flags := get_flags db src
  if is_code flags then
    let ins := (decode_insn db src).2
    if is_off0 flags && ((ins.ops 0).addr == dst || (ins.ops 0).value == dst) then
      op_num db src 0
    else if is_off1 flags && ((ins.ops 1).addr == dst || (ins.ops 1).value == dst) then
      op_num db src 1
    else db
  else
    op_num db src 0

/-- The `while (dref != BADADDR)` loop of `del_all_drefs_to(ea)`.  The first
argument bounds the number of iterations; `none` means the bound was hit. -/
def del_all_drefs_to_loop : Nat → Database → ea_t → ea_t → Option Database
  | 0, _, _, _ => none
  | fuel + 1, db, ea, dref =>
    if dref = BADADDR then some db
    else
      let db := del_dref_ex db dref ea
      -- get next source reference
      del_all_drefs_to_loop fuel db ea (get_next_dref_to db ea dref)

/-- The function `del_all_drefs_to(ea)`.  The loop bound is two more than the
number of recorded edges, which `del_all_drefs_to_total` shows is never hit. -/
def del_all_drefs_to (db : Database) (ea : ea_t) : Option Database :=
  -- get first source reference
  let dref := get_first_dref_to db ea
  if dref = BADADDR then some db
  else del_all_drefs_to_loop (db.drefs.length + 2) db ea dref

/-- The `for (int i = start; i < end; i++)` loop of `del_all_drefs_to(start, end)`,
by the number of addresses left. -/
def del_all_drefs_to_range_loop : Nat → Database → ea_t → Option Database
  | 0, db, _ => some db
  | n + 1, db, i => do
    let db ← del_all_drefs_to db i
    del_all_drefs_to_range_loop n db ((i + 1) % EA_SPACE)

/-- The function `del_all_drefs_to(start, end)`. -/
def del_all_drefs_to_range (db : Database) (start end_ : ea_t) : Option Database :=
  del_all_drefs_to_range_loop (end_ - start) db start

/-! ## Code analysis (`#pragma region Code Analysis`) -/

/-- The body of the reference loop of `remove_bad_code_xrefs` up to the label
`next`: the database after looking at the edge from `dref` to `ea`. -/
def remove_bad_code_xrefs_body (db : Database) (ea dref : ea_t) : Database :=
  -- skip internal xrefs
  if is_same_func db ea dref then db
  else
    -- skip xrefs that come from struct members
    let dref_flags := get_flags db dref
    if is_struct dref_flags then db
    -- skip switch statement xrefs
    else if get_switch_parent db ea != BADADDR then db
    else
      let r := decode_insn db dref
      -- skip jump refs
      if r.1 != 0 && is_jxx_insn r.2 then db
      -- remove bad xref
      else del_dref_ex db dref ea

/-- The `while (dref != BADADDR)` loop of `remove_bad_code_xrefs`.  The first
argument bounds the number of iterations; `none` means the bound was hit. -/
def remove_bad_code_xrefs_loop : Nat → Database → ea_t → ea_t → Option Database
  | 0, _, _, _ => none
  | fuel + 1, db, ea, dref =>
    if dref = BADADDR then some db
    else
      let db := remove_bad_code_xrefs_body db ea dref
      -- get next source reference
      remove_bad_code_xrefs_loop fuel db ea (get_next_dref_to db ea dref)

/-- The function `remove_bad_code_xrefs`.  The loop bound is two more than the
number of recorded edges, which `remove_bad_code_xrefs_total` shows is never hit. -/
def remove_bad_code_xrefs (db : Database) (ea : ea_t) : Option Database :=
  let flags := get_flags db ea
  -- skip data xrefs
  if is_data flags then some db
  -- skip addresses without any references
  else if !has_xref flags then some db
  -- skip function xrefs for now
  else if (match get_func db ea with
      | none => false
      | some func => ea == func.start_ea) then some db
  -- skip jump tables
  else if is_jmp_table db ea then some db
  else
    -- loop through all references
    remove_bad_code_xrefs_loop (db.drefs.length + 2) db ea (get_first_dref_to db ea)

/-- The host's `swap32`: the four bytes of a 32-bit value in reverse order. -/
def swap32 (x : Nat) : Nat :=
  (x % 256) * 0x1000000 + (x / 0x100 % 256) * 0x10000 +
  (x / 0x10000 % 256) * 0x100 + (x / 0x1000000 % 256)

/-- Byte `i` in memory of a 32-bit integer on the little-endian host, which is
`((char*)&val)[i]`. -/
def byte_at (val : Nat) (i : Nat) : Nat := val / 256 ^ i % 256

/-- The C library `isalnum` in the C locale.  A byte above `0x7F` is negative as
a `char` and belongs to no character class. -/
def isalnum (c : Nat) : Bool :=
  (0x30 ≤ c && c ≤ 0x39) || (0x41 ≤ c && c ≤ 0x5A) || (0x61 ≤ c && c ≤ 0x7A)

/-- The C library `ispunct` in the C locale. -/
def ispunct (c : Nat) : Bool :=
  (0x21 ≤ c && c ≤ 0x2F) || (0x3A ≤ c && c ≤ 0x40) ||
  (0x5B ≤ c && c ≤ 0x60) || (0x7B ≤ c && c ≤ 0x7E)

/-- The loop `for (; i < 4 && (isalnum(tag[i]) || ispunct(tag[i])); i++);`
started at `i` with `n` iterations left to reach 4: the final `i`. -/
def tag_scan (val : Nat) : Nat → Nat → Nat
  | 0, i => i
  | n + 1, i =>
    if isalnum (byte_at val i) || ispunct (byte_at val i) then tag_scan val n (i + 1)
    else i

/-- The text `%.4s` prints from `tag`: its bytes up to the first NUL, four at most. -/
def tag_text (val : Nat) : List Char :=
  (([0, 1, 2, 3].map (fun i => byte_at val i)).takeWhile (fun b => b != 0)).map Char.ofNat

/-- The magnitude of the IEEE 754 single with bit pattern `bits`, as a multiple of
`2^(-149)`: `none` for a NaN, `some none` for an infinity, `some (some k)` for the
finite magnitude `k * 2^(-149)`.  This is `fabs(*(float*)&value)`, exactly. -/
def float_abs (bits : Nat) : Option (Option Nat) :=
  let e := bits / 0x800000 % 256
  let m := bits % 0x800000
  if e = 255 then (if m = 0 then some none else none)
  else if e = 0 then some (some m)
  else some (some ((0x800000 + m) * 2 ^ (e - 1)))

/-- The comparison `fval > 0.0001`.  The literal is the double
`7378697629483821 * 2^(-66)`; the single is widened exactly. -/
def float_gt_0_0001 (bits : Nat) : Bool :=
  match float_abs bits with
  | none => false
  | some none => true
  | some (some k) => 7378697629483821 * 2 ^ 149 < k * 2 ^ 66

/-- The comparison `fval < 10000`. -/
def float_lt_10000 (bits : Nat) : Bool :=
  match float_abs bits with
  | none => false
  | some none => false
  | some (some k) => k < 10000 * 2 ^ 149

/-- The text of the comment hint. -/
def FLOAT_HINT : List Char := ['f', 'l', 'o', 'a', 't']

def detect_and_make_op_tag (db : Database) (instruction : insn_t) : Database :=
  -- check if value is a sensical string
  let val := swap32 ((instruction.ops 0).value % EA_SPACE)
  let i := tag_scan val 4 0
  if i = 4 then
    -- check for float comment hint
    let cmt := get_cmt db instruction.ea
    if strcmp_eq cmt FLOAT_HINT then db
    -- check for absolute float values between 0.0001 and 10000
    else if float_gt_0_0001 ((instruction.ops 0).value % EA_SPACE) &&
        float_lt_10000 ((instruction.ops 0).value % EA_SPACE) then db
    else
      -- set operand to character type
      let db := op_chr db instruction.ea 0
      -- log the tag
      msg db (Message.found_tag (tag_text val) instruction.ea)
  else db

/-! ## Data analysis (`#pragma region Data Analysis`) -/

/-- The expression `(ea + 0xF) & 0xFFFFFFF0` on 32-bit addresses. -/
def align16_up (ea : ea_t) : ea_t := ((ea + 0xF) % EA_SPACE) &&& 0xFFFFFFF0

/-- The `do ... while (pos < aligned)` loop of `is_align16` followed by its final
`return`.  The first argument bounds the number of iterations; `none` means the
bound was hit. -/
def is_align16_loop (db : Database) (aligned : ea_t) : Nat → ea_t → Option Bool
  | 0, _ => none
  | fuel + 1, pos =>
    -- skip invalid instructions
    let size := (decode_insn db pos).1
    if size = 0 then some false
    -- skip non-alignment
    else if is_align_insn db pos = 0 then some false
    -- skip jump tables
    else if is_jmp_table db pos then some false
    else
      let pos := (pos + size) % EA_SPACE
      if pos < aligned then is_align16_loop db aligned fuel pos
      -- return true if the aligned instruction is not also an alignment instruction
      else some (pos == aligned && is_align_insn db pos == 0)

/-- The function `is_align16`.  Sixteen iterations are allowed: instructions are
at least one byte long and the boundary is less than sixteen bytes away, so the
bound is hit only if the scan wraps around the end of the address space. -/
def is_align16 (db : Database) (ea : ea_t) : Option Bool :=
  let flags := get_flags db ea
  let func := get_func db ea
  -- skip alignment within functions
  if func.isSome then some false
  -- skip pre-existing 16-byte alignment
  else if is_align flags && get_alignment db ea == 4 then some false
  -- skip already-aligned instances
  else if ea &&& 0xF = 0 then some false
  else
    -- look for NOPs until the next 16-byte alignment
    is_align16_loop db (align16_up ea) 16 ea

def detect_and_make_align (db : Database) (ea : ea_t) : Option Database := do
  if (← is_align16 db ea) then
    let db := msg db (Message.creating_alignment ea)
    -- next 16 - byte alignment
    let aligned := align16_up ea
    let padding_size := (aligned + EA_SPACE - ea) % EA_SPACE
    let r := create_align db ea padding_size 4
    if !r.1 then
      -- undefine the entire range of padding
      let db ← del_all_drefs_to_range r.2 ea aligned
      let db := del_items db ea padding_size
      let r := create_align db ea padding_size 4
      return r.2
    else return r.2
  else return db

/-! ## Function boundary repair (`extend_bad_function_end` of `main.cpp`) -/

/-- The record the pointer `func` designates.  The host hands out pointers to its
own function records, so a read through `func` sees the record of the function
that starts at `func->start_ea` as the database has it now; a pointer to a record
the database does not hold reads the record it was given. -/
def deref_func (db : Database) (func : func_t) : func_t :=
  (db.funcs.find? (fun f => f.start_ea == func.start_ea)).getD func

/-- The `do ... while` forward scan of `extend_bad_function_end`.  The first
argument is `lookahead` on entry to the body, `p` the place, `seen` the addresses
decoded so far.  Returns the final place, the final `lookahead` and the addresses
decoded, in order. -/
def forward_scan (db : Database) : Nat → idaplace_t → List ea_t → idaplace_t × Int × List ea_t
  | 0, p, seen => (db.place_next p, -1, seen ++ [p.ea])
  | n + 1, p, seen =>
    let ins := (decode_insn db p.ea).2
    let p' := db.place_next p
    if !db.is_func_end_insn ins && is_align_insn db p'.ea == 0 &&
        (get_func db p'.ea).isNone && 0 < n then
      forward_scan db n p' (seen ++ [p.ea])
    else (p', (n : Int), seen ++ [p.ea])

/-- How one pass through the body of the `for` loop ends: with `continue`, with
`return BADADDR`, or by reading through the null pointer `get_next_func` returned.
The list holds the addresses the forward scan of this pass decoded. -/
inductive Step where
  | again (db : Database) (decoded : List ea_t)
  | abort (db : Database) (decoded : List ea_t)
  | null_deref (db : Database)

/-- The second half of the loop body: the forward scan and what follows it. -/
def scan_and_set_end (db : Database) (func : func_t) : Step :=
  -- scan until the next return/alignment/function
  let r := forward_scan db 100 ⟨(deref_func db func).end_ea, 0⟩ []
  let p := r.1
  let lookahead := r.2.1
  if 0 < lookahead then
    let s := set_func_end db (deref_func db func).start_ea p.ea
    if s.1 then Step.again s.2 r.2.2
    -- all attempts failed, abort
    else Step.abort s.2 r.2.2
  else Step.abort db r.2.2

/-- One pass through the body of the `for` loop of `extend_bad_function_end`.
The record `next_func` points to is read as it was when `get_next_func` returned. -/
def extend_attempt (db : Database) (func : func_t) : Step :=
  -- consume the next function if nothing inbetween
  match get_next_func db (deref_func db func).start_ea with
  | none => Step.null_deref db
  | some next_func =>
    if next_func.start_ea == (deref_func db func).end_ea then
      let d := del_func db next_func.start_ea
      if d.1 then
        let db := msg d.2 (Message.removed_bad_function next_func.start_ea)
        let db := del_global_name db next_func.start_ea
        let s := set_func_end db (deref_func db func).start_ea next_func.end_ea
        if s.1 then Step.again s.2 []
        else scan_and_set_end s.2 func
      else scan_and_set_end d.2 func
    else scan_and_set_end db func

/-- What a call of `extend_bad_function_end` comes to. -/
inductive Outcome where
  | returned (value : ea_t)
  | null_deref
deriving DecidableEq, Repr

/-- Result of a call of `extend_bad_function_end`: how it ended, the database it
left, and for every pass through the loop body the addresses its forward scan
decoded. -/
structure Run where
  outcome : Outcome
  db : Database
  passes : List (List ea_t)

/-- The `for (int i = 0; i < max_tries && !func_does_end(*func); i++)` loop, by
the number of tries left, followed by the final `return func->end_ea`. -/
def extend_loop : Nat → Database → func_t → List (List ea_t) → Run
  | 0, db, func, passes => ⟨Outcome.returned (deref_func db func).end_ea, db, passes⟩
  | n + 1, db, func, passes =>
    if db.func_does_end (deref_func db func) then
      ⟨Outcome.returned (deref_func db func).end_ea, db, passes⟩
    else
      match extend_attempt db func with
      | Step.again db' decoded => extend_loop n db' func (passes ++ [decoded])
      | Step.abort db' decoded => ⟨Outcome.returned BADADDR, db', passes ++ [decoded]⟩
      | Step.null_deref db' => ⟨Outcome.null_deref, db', passes ++ [[]]⟩

def extend_bad_function_end (db : Database) (func : func_t) : Run :=
  extend_loop 5 db func []

/-! ## Auxiliary notions for the statements -/

/-- The addresses the forward scan of a pass decoded. -/
def Step.decoded : Step → List ea_t
  | Step.again _ d => d
  | Step.abort _ d => d
  | Step.null_deref _ => []


/-- Number of edges into `ea` whose source lies above `cur`: the references the
loops over `get_next_dref_to` have still to visit. -/
def pending (db : Database) (ea cur : ea_t) : Nat :=
  (db.drefs.filter (fun e => e.2 == ea && decide (cur < e.1))).length

/-- The edge from `src` to `ea` comes from the function that owns `ea`, or from an
instruction that decodes to a branch. -/
def is_kept (db : Database) (ea src : ea_t) : Bool :=
  is_same_func db ea src ||
  ((decode_insn db src).1 != 0 && is_jxx_insn (decode_insn db src).2)

/-- The next 16-byte boundary as the specification writes it: `ceil(A/16)*16`. -/
def next16 (A : ea_t) : ea_t := (A + 15) / 16 * 16

/-- The bytes from `pos` up to `N` decode as a run of padding instructions that
ends exactly at `N`: every instruction of the run decodes, is a padding
instruction and starts below `N`, each starts where the one before it ends, and
the last one ends at `N`.  The list holds the addresses the instructions start at. -/
inductive PaddingRun (db : Database) (N : ea_t) : ea_t → List ea_t → Prop where
  | last (pos : ea_t) :
      pos < N → (decode_insn db pos).1 ≠ 0 → is_align_insn db pos ≠ 0 →
      pos + (decode_insn db pos).1 = N → PaddingRun db N pos [pos]
  | step (pos : ea_t) (rest : List ea_t) :
      pos < N → (decode_insn db pos).1 ≠ 0 → is_align_insn db pos ≠ 0 →
      PaddingRun db N (pos + (decode_insn db pos).1) rest →
      PaddingRun db N pos (pos :: rest)

/-! ## Concrete databases used to exercise the definitions -/

/-- An instruction record with the given address and mnemonic and zero operands. -/
def mk_insn (ea : ea_t) (mnem : List Char) : insn_t := ⟨ea, mnem, fun _ => ⟨0, 0⟩⟩

/-- An empty database: nothing decodes, no functions, no references, and the host
accepts every request. -/
def empty_db : Database where
  flags := fun _ => FF_UNK
  cmt := fun _ => []
  alignment := fun _ => 0
  switch_parent := fun _ => BADADDR
  decode := fun a => (0, mk_insn a [])
  align_insn := fun _ => 0
  place_next := fun p => ⟨p.ea + 1, 0⟩
  place_prev := fun p => ⟨p.ea - 1, 0⟩
  funcs := []
  drefs := []
  func_does_end := fun _ => true
  is_func_end_insn := fun _ => false
  accept := fun _ _ => true
  log := []

/-- A database in which decoding fails everywhere although the record left in the
output argument carries the mnemonic of a jump. -/
def db_undecodable : Database :=
  { empty_db with decode := fun a => (0, mk_insn a ['j', 'm', 'p']) }

/-- Flags of an instruction byte with the given operand representations; `ref`
says whether something references it. -/
def code_flags (ref : Bool) (op0 op1 : op_type) : flags_t :=
  ⟨item_class.code, data_type.other, false, ref, op0, op1⟩

/-- A database for the cross-reference sanitizer.  One function covers
`0x1000 .. 0x101F`.  The instruction at `0x1010` is referenced from `0x1004`
(inside the same function), from `0x2000` (a `jz`), from `0x2008` (a `jmp`) and
from `0x3000` (a `mov` whose first operand is an offset with the value `0x1010`). -/
def db_xrefs : Database :=
  { empty_db with
    flags := fun a =>
      if a = 0x1010 then code_flags true op_type.void op_type.void
      else if a = 0x1004 ∨ a = 0x2000 ∨ a = 0x2008 ∨ a = 0x3000 then
        code_flags false op_type.off op_type.void
      else FF_UNK
    decode := fun a =>
      if a = 0x1004 then (4, ⟨a, ['l', 'e', 'a'], fun _ => ⟨0x1010, 0⟩⟩)
      else if a = 0x2000 then (2, ⟨a, ['j', 'z'], fun _ => ⟨0x1010, 0⟩⟩)
      else if a = 0x2008 then (5, ⟨a, ['j', 'm', 'p'], fun _ => ⟨0x1010, 0⟩⟩)
      else if a = 0x3000 then (5, ⟨a, ['m', 'o', 'v'], fun _ => ⟨0, 0x1010⟩⟩)
      else (0, mk_insn a [])
    funcs := [⟨0x1000, 0x1020⟩]
    drefs := [(0x3000, 0x1010), (0x1004, 0x1010), (0x2008, 0x1010), (0x2000, 0x1010)] }

/-- The example database with the first operand of the `mov` at `0x3000` shown as
a character literal instead of an offset. -/
def db_chr_operand : Database :=
  { db_xrefs with
    flags := fun a =>
      if a = 0x3000 then code_flags false op_type.chr op_type.void else db_xrefs.flags a }

/-- The example database with the bytes at `0x3000` being data, not code. -/
def db_data_source : Database :=
  { db_xrefs with
    flags := fun a =>
      if a = 0x3000 then
        ⟨item_class.data, data_type.other, false, false, op_type.off, op_type.void⟩
      else db_xrefs.flags a }

/-- An instruction at `0x1000` whose first operand has the raw value `v`. -/
def mov_imm (v : Nat) : insn_t :=
  ⟨0x1000, ['m', 'o', 'v'], fun i => if i = 0 then ⟨0, v⟩ else ⟨0, 0⟩⟩

/-- A database holding one instruction at `0x1000`, first operand shown as a
number, no comment. -/
def db_tag : Database :=
  { empty_db with
    flags := fun a => if a = 0x1000 then code_flags false op_type.num op_type.void else FF_UNK }

/-- The four characters of a 32-bit value, most significant byte first. -/
def tag_of (v : Nat) : List Char :=
  [Char.ofNat (v / 0x1000000 % 256), Char.ofNat (v / 0x10000 % 256),
   Char.ofNat (v / 0x100 % 256), Char.ofNat (v % 256)]

/-- A database for the alignment detector: three one-byte padding instructions at
`0x100D`, `0x100E`, `0x100F`, an ordinary instruction at the boundary `0x1010`,
no function. -/
def db_pad : Database :=
  { empty_db with
    flags := fun a =>
      if 0x100D ≤ a ∧ a ≤ 0x1010 then code_flags false op_type.void op_type.void else FF_UNK
    decode := fun a =>
      if 0x100D ≤ a ∧ a ≤ 0x100F then (1, mk_insn a ['n', 'o', 'p'])
      else if a = 0x1010 then (1, mk_insn a ['p', 'u', 's', 'h'])
      else (0, mk_insn a [])
    align_insn := fun a => if 0x100D ≤ a ∧ a ≤ 0x100F then 1 else 0 }

/-- The padding database with `0x100E` a referenced data item whose comment marks
it as a jump table. -/
def db_pad_table : Database :=
  { db_pad with
    flags := fun a =>
      if a = 0x100E then
        ⟨item_class.data, data_type.other, true, true, op_type.void, op_type.void⟩
      else db_pad.flags a
    cmt := fun a =>
      if a = 0x100E then
        ['j', 'u', 'm', 'p', ' ', 't', 'a', 'b', 'l', 'e', ' ', 'f', 'o', 'r', ' ',
         's', 'w', 'i', 't', 'c', 'h', ' ', 's', 't', 'a', 't', 'e', 'm', 'e', 'n', 't']
      else [] }

/-- The padding database with a data item at `0x100E` that refers to `0x100D`, and
a host that turns down the first request to create the alignment item. -/
def db_pad_busy : Database :=
  { db_pad with
    flags := fun a =>
      if a = 0x100E then
        ⟨item_class.data, data_type.other, false, false, op_type.off, op_type.void⟩
      else db_pad.flags a
    drefs := [(0x100E, 0x100D)]
    accept := fun log _ => decide (1 < log.length) }

/-- The database the first `detect_and_make_align` leaves of `db_pad`. -/
def db_pad_done : Database :=
  (create_align (msg db_pad (Message.creating_alignment 0x100D)) 0x100D 3 4).2

/-- A database with a function `0x1000 .. 0x100F` that does not end validly and,
right behind it, a function `0x1010 .. 0x102F`.  A function is taken to end validly
when it ends at `0x1030`. -/
def db_two_funcs : Database :=
  { empty_db with
    funcs := [⟨0x1000, 0x1010⟩, ⟨0x1010, 0x1030⟩]
    func_does_end := fun f => f.end_ea == 0x1030 }

/-- A database whose only function, `0x1000 .. 0x100F`, does not end validly. -/
def db_last_func : Database :=
  { empty_db with
    funcs := [⟨0x1000, 0x1010⟩]
    func_does_end := fun f => f.end_ea == 0x1030 }

/-- A database whose last function, `0x2000 .. 0x200F`, does not end validly and
is followed by two more instructions, the second a `retn` at `0x2011` that ends a
function.  Another function lies below it. -/
def db_no_neighbour : Database :=
  { empty_db with
    decode := fun a =>
      if a = 0x2010 then (1, mk_insn a ['p', 'o', 'p'])
      else if a = 0x2011 then (1, mk_insn a ['r', 'e', 't', 'n'])
      else (0, mk_insn a [])
    funcs := [⟨0x1000, 0x1010⟩, ⟨0x2000, 0x2010⟩]
    func_does_end := fun f => f.end_ea == 0x1010 || f.end_ea == 0x2012
    is_func_end_insn := fun ins => is_retn_insn ins }

/-! ## Theorems -/

/-! ### Enumeration of references -/

theorem foldl_min_mem (l : List Nat) (b : Nat) : l.foldl min b = b ∨ l.foldl min b ∈ l := by
  induction l generalizing b with
  | nil => simp
  | cons a t ih =>
    simp only [List.foldl_cons]
    rcases ih (min b a) with h | h
    · rw [h]
      rcases Nat.le_total b a with hle | hle
      · left; exact Nat.min_eq_left hle
      · right; rw [Nat.min_eq_right hle]; simp
    · right; exact List.mem_cons_of_mem _ h

theorem get_next_dref_to_spec (db : Database) (ea cur : ea_t)
    (h : get_next_dref_to db ea cur ≠ BADADDR) :
    (get_next_dref_to db ea cur, ea) ∈ db.drefs ∧ cur < get_next_dref_to db ea cur := by
  unfold get_next_dref_to at h ⊢
  rcases foldl_min_mem (drefs_above db ea (some cur)) BADADDR with h1 | h1
  · exact absurd h1 h
  · generalize List.foldl min BADADDR (drefs_above db ea (some cur)) = x at h1 ⊢
    simp only [drefs_above, List.mem_map, List.mem_filter] at h1
    obtain ⟨⟨a, b⟩, ⟨hm, hc⟩, hfst⟩ := h1
    simp only [Bool.and_eq_true, beq_iff_eq, decide_eq_true_eq] at hc
    simp only at hfst
    obtain ⟨hb, hlt⟩ := hc
    subst hb
    subst hfst
    exact ⟨hm, hlt⟩

theorem count_above_lt (l : List (ea_t × ea_t)) (ea cur n : ea_t)
    (hmem : (n, ea) ∈ l) (hlt : cur < n) :
    (l.filter (fun e => e.2 == ea && decide (n < e.1))).length <
    (l.filter (fun e => e.2 == ea && decide (cur < e.1))).length := by
  rw [← List.countP_eq_length_filter, ← List.countP_eq_length_filter]
  have himp : ∀ e : ea_t × ea_t, (e.2 == ea && decide (n < e.1)) = true →
      (e.2 == ea && decide (cur < e.1)) = true := by
    intro e he
    simp only [Bool.and_eq_true, beq_iff_eq, decide_eq_true_eq] at he ⊢
    exact ⟨he.1, lt_trans hlt he.2⟩
  induction l with
  | nil => simp at hmem
  | cons x t ih =>
    have hmono : t.countP (fun e => e.2 == ea && decide (n < e.1)) ≤
        t.countP (fun e => e.2 == ea && decide (cur < e.1)) :=
      List.countP_mono_left (fun e _ he => himp e he)
    rw [List.countP_cons, List.countP_cons]
    rcases List.mem_cons.1 hmem with h | h
    · subst h
      have h1 : ((n, ea).2 == ea && decide (n < (n, ea).1)) = false := by simp
      have h2 : ((n, ea).2 == ea && decide (cur < (n, ea).1)) = true := by simp [hlt]
      rw [h1, h2]
      simp only [Bool.false_eq_true, if_false, if_true]
      exact Nat.lt_succ_of_le hmono
    · have hlt' := ih h
      by_cases hp : (x.2 == ea && decide (n < x.1)) = true
      · rw [hp, himp x hp]
        simp only [if_true]
        exact Nat.succ_lt_succ hlt'
      · simp only [hp, if_false, Bool.false_eq_true, Nat.add_zero]
        exact Nat.lt_of_lt_of_le hlt' (Nat.le_add_right _ _)

theorem pending_next_lt (db : Database) (ea cur : ea_t)
    (h : get_next_dref_to db ea cur ≠ BADADDR) :
    pending db ea (get_next_dref_to db ea cur) < pending db ea cur := by
  obtain ⟨hm, hlt⟩ := get_next_dref_to_spec db ea cur h
  exact count_above_lt db.drefs ea cur _ hm hlt

theorem pending_le_of_sublist (db db' : Database) (ea cur : ea_t)
    (h : db'.drefs.Sublist db.drefs) : pending db' ea cur ≤ pending db ea cur :=
  (h.filter _).length_le

theorem pending_le_length (db : Database) (ea cur : ea_t) :
    pending db ea cur ≤ db.drefs.length :=
  (List.filter_sublist _).length_le

/-! ### What `del_dref_ex` touches -/

/-- Everything `del_dref_ex src dst` leaves alone: the tables it does not write,
every edge but the one from `src` to `dst`, the flags of every other address, and
it logs no operand request for another address. -/
theorem del_dref_ex_frame (db : Database) (src dst : ea_t) :
    (del_dref_ex db src dst).funcs = db.funcs ∧
    (del_dref_ex db src dst).decode = db.decode ∧
    (del_dref_ex db src dst).switch_parent = db.switch_parent ∧
    (del_dref_ex db src dst).drefs = db.drefs.filter (fun e => !(e.1 == src && e.2 == dst)) ∧
    (∀ a, a ≠ src → (del_dref_ex db src dst).flags a = db.flags a) ∧
    ∃ new, (del_dref_ex db src dst).log = db.log ++ new ∧
      ∀ a n, a ≠ src → Call.op_num a n ∉ new := by
  unfold del_dref_ex
  simp only [del_dref, msg, record, op_num, get_flags, decode_insn]
  split_ifs <;>
  refine ⟨rfl, rfl, rfl, rfl, ?_, ?_⟩ <;>
  first
  | (intro a ha; simp [ha])
  | (refine ⟨_, by simp only [List.append_assoc]; rfl, ?_⟩
     intro a n ha
     simp only [List.cons_append, List.nil_append, List.mem_cons, List.mem_singleton,
       List.not_mem_nil, Call.op_num.injEq, not_or, not_and, reduceCtorEq, not_false_eq_true,
       true_and, or_false]
     try exact fun h => absurd h ha)

theorem del_dref_ex_drefs_sublist (db : Database) (src dst : ea_t) :
    (del_dref_ex db src dst).drefs.Sublist db.drefs := by
  rw [(del_dref_ex_frame db src dst).2.2.2.1]
  exact List.filter_sublist _

theorem remove_bad_code_xrefs_body_sublist (db : Database) (ea dref : ea_t) :
    (remove_bad_code_xrefs_body db ea dref).drefs.Sublist db.drefs := by
  unfold remove_bad_code_xrefs_body
  simp only
  split_ifs
  any_goals exact List.Sublist.refl _
  exact del_dref_ex_drefs_sublist db dref ea

/-! ### The reference loops end within their bound -/

theorem remove_bad_code_xrefs_loop_total (ea : ea_t) :
    ∀ (fuel : Nat) (db : Database) (dref : ea_t), pending db ea dref + 1 < fuel →
      ∃ db', remove_bad_code_xrefs_loop fuel db ea dref = some db' := by
  intro fuel
  induction fuel with
  | zero => intro db dref h; omega
  | succ k ih =>
    intro db dref h
    unfold remove_bad_code_xrefs_loop
    by_cases hb : dref = BADADDR
    · exact ⟨db, by simp [hb]⟩
    · simp only [hb, if_false]
      by_cases hn : get_next_dref_to (remove_bad_code_xrefs_body db ea dref) ea dref = BADADDR
      · rw [hn]
        cases k with
        | zero => omega
        | succ j =>
          exact ⟨remove_bad_code_xrefs_body db ea dref, by
            unfold remove_bad_code_xrefs_loop; simp⟩
      · apply ih
        have h1 := pending_next_lt _ ea dref hn
        have h2 := pending_le_of_sublist db _ ea dref
          (remove_bad_code_xrefs_body_sublist db ea dref)
        omega

theorem del_all_drefs_to_loop_total (ea : ea_t) :
    ∀ (fuel : Nat) (db : Database) (dref : ea_t), pending db ea dref + 1 < fuel →
      ∃ db', del_all_drefs_to_loop fuel db ea dref = some db' := by
  intro fuel
  induction fuel with
  | zero => intro db dref h; omega
  | succ k ih =>
    intro db dref h
    unfold del_all_drefs_to_loop
    by_cases hb : dref = BADADDR
    · exact ⟨db, by simp [hb]⟩
    · simp only [hb, if_false]
      by_cases hn : get_next_dref_to (del_dref_ex db dref ea) ea dref = BADADDR
      · rw [hn]
        cases k with
        | zero => omega
        | succ j =>
          exact ⟨del_dref_ex db dref ea, by unfold del_all_drefs_to_loop; simp⟩
      · apply ih
        have h1 := pending_next_lt _ ea dref hn
        have h2 := pending_le_of_sublist db _ ea dref (del_dref_ex_drefs_sublist db dref ea)
        omega

/-- The function `remove_bad_code_xrefs` returns on every database and address. -/
theorem remove_bad_code_xrefs_total (db : Database) (ea : ea_t) :
    ∃ db', remove_bad_code_xrefs db ea = some db' := by
  have hloop : ∃ db', remove_bad_code_xrefs_loop (db.drefs.length + 2) db ea
      (get_first_dref_to db ea) = some db' := by
    apply remove_bad_code_xrefs_loop_total
    have := pending_le_length db ea (get_first_dref_to db ea)
    omega
  unfold remove_bad_code_xrefs
  simp only
  split_ifs
  · exact ⟨db, rfl⟩
  · exact ⟨db, rfl⟩
  · exact ⟨db, rfl⟩
  · exact ⟨db, rfl⟩
  · exact hloop

/-- The function `del_all_drefs_to(ea)` returns on every database and address. -/
theorem del_all_drefs_to_total (db : Database) (ea : ea_t) :
    ∃ db', del_all_drefs_to db ea = some db' := by
  unfold del_all_drefs_to
  simp only
  split_ifs
  · exact ⟨db, rfl⟩
  · apply del_all_drefs_to_loop_total
    have := pending_le_length db ea (get_first_dref_to db ea)
    omega

/-! ### Edges the sanitizer keeps -/

theorem is_kept_congr (db db1 : Database) (ea src : ea_t)
    (hf : db1.funcs = db.funcs) (hd : db1.decode = db.decode) :
    is_kept db1 ea src = is_kept db ea src := by
  simp only [is_kept, is_same_func, get_func, decode_insn, hf, hd]

theorem remove_bad_code_xrefs_body_kept (db : Database) (ea src : ea_t)
    (hk : is_kept db ea src = true) : remove_bad_code_xrefs_body db ea src = db := by
  unfold remove_bad_code_xrefs_body
  simp only [is_kept, Bool.or_eq_true] at hk
  simp only
  split_ifs with h1 h2 h3 h4
  · rfl
  · rfl
  · rfl
  · rfl
  · rcases hk with hk | hk
    · exact absurd hk h1
    · exact absurd hk h4

theorem remove_bad_code_xrefs_body_keeps (db : Database) (ea dref src : ea_t)
    (hk : is_kept db ea src = true) (hmem : (src, ea) ∈ db.drefs) :
    is_kept (remove_bad_code_xrefs_body db ea dref) ea src = true ∧
    (src, ea) ∈ (remove_bad_code_xrefs_body db ea dref).drefs ∧
    (remove_bad_code_xrefs_body db ea dref).flags src = db.flags src ∧
    ∃ new, (remove_bad_code_xrefs_body db ea dref).log = db.log ++ new ∧
      ∀ n, Call.op_num src n ∉ new := by
  by_cases hd : dref = src
  · subst hd
    rw [remove_bad_code_xrefs_body_kept db ea dref hk]
    exact ⟨hk, hmem, rfl, [], by simp, by simp⟩
  · have hid : is_kept db ea src = true ∧ (src, ea) ∈ db.drefs ∧ db.flags src = db.flags src ∧
        ∃ new, db.log = db.log ++ new ∧ ∀ n, Call.op_num src n ∉ new :=
      ⟨hk, hmem, rfl, [], by simp, by simp⟩
    unfold remove_bad_code_xrefs_body
    simp only
    split_ifs
    · exact hid
    · exact hid
    · exact hid
    · exact hid
    · obtain ⟨hf, hdec, _, hdr, hfl, new, hlog, hnew⟩ := del_dref_ex_frame db dref ea
      refine ⟨?_, ?_, hfl src (Ne.symm hd), new, hlog, fun n => hnew src n (Ne.symm hd)⟩
      · rw [is_kept_congr db _ ea src hf hdec]; exact hk
      · rw [hdr, List.mem_filter]
        refine ⟨hmem, ?_⟩
        simp only [Bool.not_eq_true', Bool.and_eq_false_iff, beq_eq_false_iff_ne, ne_eq]
        exact Or.inl (Ne.symm hd)

theorem remove_bad_code_xrefs_loop_keeps (ea src : ea_t) :
    ∀ (fuel : Nat) (db : Database) (dref : ea_t) (db' : Database),
      remove_bad_code_xrefs_loop fuel db ea dref = some db' →
      is_kept db ea src = true → (src, ea) ∈ db.drefs →
      (src, ea) ∈ db'.drefs ∧ db'.flags src = db.flags src ∧
      ∃ new, db'.log = db.log ++ new ∧ ∀ n, Call.op_num src n ∉ new := by
  intro fuel
  induction fuel with
  | zero =>
    intro db dref db' h
    simp [remove_bad_code_xrefs_loop] at h
  | succ k ih =>
    intro db dref db' h hk hmem
    unfold remove_bad_code_xrefs_loop at h
    by_cases hb : dref = BADADDR
    · simp only [hb, if_true, Option.some.injEq] at h
      subst h
      exact ⟨hmem, rfl, [], by simp, by simp⟩
    · simp only [hb, if_false] at h
      obtain ⟨hk1, hm1, hf1, new1, hl1, hn1⟩ :=
        remove_bad_code_xrefs_body_keeps db ea dref src hk hmem
      obtain ⟨hm2, hf2, new2, hl2, hn2⟩ := ih _ _ db' h hk1 hm1
      refine ⟨hm2, hf2.trans hf1, new1 ++ new2, ?_, ?_⟩
      · rw [hl2, hl1, List.append_assoc]
      · intro n hmem'
        rcases List.mem_append.1 hmem' with h' | h'
        · exact hn1 n h'
        · exact hn2 n h'

theorem remove_bad_code_xrefs_keeps (db : Database) (ea src : ea_t)
    (hk : is_kept db ea src = true) (hmem : (src, ea) ∈ db.drefs) :
    ∃ db', remove_bad_code_xrefs db ea = some db' ∧
      (src, ea) ∈ db'.drefs ∧ db'.flags src = db.flags src ∧
      ∃ new, db'.log = db.log ++ new ∧ ∀ n, Call.op_num src n ∉ new := by
  obtain ⟨db', hdb'⟩ := remove_bad_code_xrefs_total db ea
  refine ⟨db', hdb', ?_⟩
  have hid : (src, ea) ∈ db.drefs ∧ db.flags src = db.flags src ∧
      ∃ new, db.log = db.log ++ new ∧ ∀ n, Call.op_num src n ∉ new :=
    ⟨hmem, rfl, [], by simp, by simp⟩
  unfold remove_bad_code_xrefs at hdb'
  simp only at hdb'
  split_ifs at hdb'
  · cases hdb'; exact hid
  · cases hdb'; exact hid
  · cases hdb'; exact hid
  · cases hdb'; exact hid
  · exact remove_bad_code_xrefs_loop_keeps ea src _ db _ db' hdb' hk hmem

/-! ### C strings -/

theorem strstr_eq_zero_iff (hay needle : List Char) :
    strstr hay needle = some 0 ↔ starts_with hay needle = true := by
  cases hay with
  | nil => simp [strstr]
  | cons h hs =>
    unfold strstr
    split_ifs with hs'
    · simp [hs']
    · simp [hs']

theorem starts_with_ret_iff (s : List Char) :
    starts_with s ['r', 'e', 't'] = true ↔ ∃ rest, s = 'r' :: 'e' :: 't' :: rest := by
  constructor
  · intro h
    match s, h with
    | a :: b :: c :: rest, h =>
      simp only [starts_with, Bool.and_eq_true, beq_iff_eq, and_true] at h
      obtain ⟨ha, hb, hc⟩ := h
      exact ⟨rest, by rw [ha, hb, hc]⟩
    | [a, b], h => simp [starts_with] at h
    | [a], h => simp [starts_with] at h
    | [], h => simp [starts_with] at h
  · rintro ⟨rest, rfl⟩
    simp [starts_with]

/-- C1: at an address where instruction decoding fails, each of the address-taking
classifiers is_jxx_insn, is_jcc_insn, is_jmp_insn and is_retn_insn returns false. -/
theorem classifiers_fail_closed (db : Database) (ea : ea_t)
    (hfail : (decode_insn db ea).1 = 0) :
    is_jxx_insn_ea db ea = false ∧ is_jcc_insn_ea db ea = false ∧
    is_jmp_insn_ea db ea = false ∧ is_retn_insn_ea db ea = false := by
  simp [is_jxx_insn_ea, is_jcc_insn_ea, is_jmp_insn_ea, is_retn_insn_ea, hfail]

theorem classifiers_fail_closed_witness :
    (decode_insn db_undecodable 0x1000).1 = 0 ∧
    is_jmp_insn (decode_insn db_undecodable 0x1000).2 = true ∧
    (is_jxx_insn_ea db_undecodable 0x1000 = false ∧
     is_jcc_insn_ea db_undecodable 0x1000 = false ∧
     is_jmp_insn_ea db_undecodable 0x1000 = false ∧
     is_retn_insn_ea db_undecodable 0x1000 = false) :=
  ⟨by decide, by decide, classifiers_fail_closed db_undecodable 0x1000 (by decide)⟩

/-- C2: an incoming data reference whose source lies in the same function as the
target survives remove_bad_code_xrefs, which returns, leaves the flags of the source
as they were and asks for no operand of the source to be retyped. -/
theorem same_function_edge_kept (db : Database) (T S : ea_t) (f : func_t)
    (hedge : (S, T) ∈ db.drefs)
    (hT : get_func db T = some f) (hS : get_func db S = some f) :
    ∃ db', remove_bad_code_xrefs db T = some db' ∧
      (S, T) ∈ db'.drefs ∧ db'.flags S = db.flags S ∧
      ∃ new, db'.log = db.log ++ new ∧ ∀ n, Call.op_num S n ∉ new := by
  apply remove_bad_code_xrefs_keeps db T S _ hedge
  have hc : func_contains f S = true := by
    unfold get_func at hS
    exact @List.find?_some _ (fun f => func_contains f S) f db.funcs hS
  simp [is_kept, is_same_func, hT, hc]

/-- C3: an incoming data reference whose source decodes to an instruction whose
mnemonic begins with the letter j survives remove_bad_code_xrefs, which returns. -/
theorem branch_edge_kept (db : Database) (T S : ea_t)
    (hedge : (S, T) ∈ db.drefs)
    (hdec : (decode_insn db S).1 ≠ 0)
    (hj : c_at (decode_insn db S).2.get_canon_mnem 0 = 'j') :
    ∃ db', remove_bad_code_xrefs db T = some db' ∧ (S, T) ∈ db'.drefs := by
  have hk : is_kept db T S = true := by
    simp [is_kept, is_jxx_insn, hdec, hj]
  obtain ⟨db', h1, h2, _⟩ := remove_bad_code_xrefs_keeps db T S hk hedge
  exact ⟨db', h1, h2⟩

theorem same_function_edge_kept_witness :
    (0x1004, 0x1010) ∈ db_xrefs.drefs ∧
    get_func db_xrefs 0x1010 = some ⟨0x1000, 0x1020⟩ ∧
    get_func db_xrefs 0x1004 = some ⟨0x1000, 0x1020⟩ ∧
    ∃ db', remove_bad_code_xrefs db_xrefs 0x1010 = some db' ∧
      (0x1004, 0x1010) ∈ db'.drefs ∧ db'.flags 0x1004 = db_xrefs.flags 0x1004 ∧
      ∃ new, db'.log = db_xrefs.log ++ new ∧ ∀ n, Call.op_num 0x1004 n ∉ new :=
  ⟨by decide, by decide, by decide,
   same_function_edge_kept db_xrefs 0x1010 0x1004 ⟨0x1000, 0x1020⟩
     (by decide) (by decide) (by decide)⟩

theorem branch_edge_kept_witness :
    (0x2000, 0x1010) ∈ db_xrefs.drefs ∧
    (decode_insn db_xrefs 0x2000).1 ≠ 0 ∧
    c_at (decode_insn db_xrefs 0x2000).2.get_canon_mnem 0 = 'j' ∧
    ∃ db', remove_bad_code_xrefs db_xrefs 0x1010 = some db' ∧ (0x2000, 0x1010) ∈ db'.drefs :=
  ⟨by decide, by decide, by decide,
   branch_edge_kept db_xrefs 0x1010 0x2000 (by decide) (by decide) (by decide)⟩

/-- On the example database the sanitizer run at `0x1010` removes exactly the edge
from the `mov` at `0x3000`, retypes its first operand and keeps the other three. -/
theorem remove_bad_code_xrefs_example :
    (remove_bad_code_xrefs db_xrefs 0x1010).map (fun d => (d.drefs, d.log, d.flags 0x3000)) =
      some ([(0x1004, 0x1010), (0x2008, 0x1010), (0x2000, 0x1010)],
            [Call.del_dref 0x3000 0x1010,
             Call.msg (Message.removed_bad_xref 0x3000 0x1010),
             Call.op_num 0x3000 0],
            code_flags false op_type.num op_type.void) := by
  decide

/-- C9, as stated, fails: the source `0x3000` is code and the raw value of its
first operand equals the target `0x1010`, but the operand is shown as a character
literal, not as an offset; del_dref_ex deletes the edge and neither retypes
operand 0 nor asks the database to. -/
theorem del_dref_ex_leaves_non_offset_operand :
    is_code (get_flags db_chr_operand 0x3000) = true ∧
    ((decode_insn db_chr_operand 0x3000).2.ops 0).value = 0x1010 ∧
    (0x3000, 0x1010) ∈ db_chr_operand.drefs ∧
    (0x3000, 0x1010) ∉ (del_dref_ex db_chr_operand 0x3000 0x1010).drefs ∧
    ((del_dref_ex db_chr_operand 0x3000 0x1010).flags 0x3000).op0 = op_type.chr ∧
    Call.op_num 0x3000 0 ∉ (del_dref_ex db_chr_operand 0x3000 0x1010).log := by
  decide

/-- C9, amended: del_dref_ex deletes the edge from S to T and then, when S is code,
its first operand is shown as an offset and that operand's resolved address or raw
value equals T, retypes operand 0 of S to a plain number; otherwise, when S is
code, its second operand is shown as an offset and that operand's address or value
equals T, retypes operand 1; when S is code and neither holds, retypes nothing; and
when S is not code, retypes operand 0 to a plain number unconditionally. -/
theorem del_dref_ex_repairs_offset_operand (db : Database) (S T : ea_t) :
    (S, T) ∉ (del_dref_ex db S T).drefs ∧
    (is_code (db.flags S) = true →
      is_off0 (db.flags S) = true →
      ((decode_insn db S).2.ops 0).addr = T ∨ ((decode_insn db S).2.ops 0).value = T →
      (del_dref_ex db S T).flags S = { db.flags S with op0 := op_type.num } ∧
      (del_dref_ex db S T).log = db.log ++
        [Call.del_dref S T, Call.msg (Message.removed_bad_xref S T), Call.op_num S 0]) ∧
    (is_code (db.flags S) = true →
      ¬ (is_off0 (db.flags S) = true ∧
        (((decode_insn db S).2.ops 0).addr = T ∨ ((decode_insn db S).2.ops 0).value = T)) →
      is_off1 (db.flags S) = true →
      ((decode_insn db S).2.ops 1).addr = T ∨ ((decode_insn db S).2.ops 1).value = T →
      (del_dref_ex db S T).flags S = { db.flags S with op1 := op_type.num } ∧
      (del_dref_ex db S T).log = db.log ++
        [Call.del_dref S T, Call.msg (Message.removed_bad_xref S T), Call.op_num S 1]) ∧
    (is_code (db.flags S) = true →
      ¬ (is_off0 (db.flags S) = true ∧
        (((decode_insn db S).2.ops 0).addr = T ∨ ((decode_insn db S).2.ops 0).value = T)) →
      ¬ (is_off1 (db.flags S) = true ∧
        (((decode_insn db S).2.ops 1).addr = T ∨ ((decode_insn db S).2.ops 1).value = T)) →
      (del_dref_ex db S T).flags S = db.flags S ∧
      (del_dref_ex db S T).log = db.log ++
        [Call.del_dref S T, Call.msg (Message.removed_bad_xref S T)]) ∧
    (is_code (db.flags S) = false →
      (del_dref_ex db S T).flags S = { db.flags S with op0 := op_type.num } ∧
      (del_dref_ex db S T).log = db.log ++
        [Call.del_dref S T, Call.msg (Message.removed_bad_xref S T), Call.op_num S 0]) := by
  refine ⟨?_, ?_, ?_, ?_, ?_⟩
  · rw [(del_dref_ex_frame db S T).2.2.2.1]
    simp
  · intro hc ho hm
    have hm' : (((decode_insn db S).2.ops 0).addr == T ||
        ((decode_insn db S).2.ops 0).value == T) = true := by
      simpa using hm
    simp only [del_dref_ex, del_dref, msg, record, op_num, get_flags, decode_insn] at hm' ⊢
    simp [hc, ho, hm', set_op_type]
  · intro hc h0 ho hm
    have h0' : (is_off0 (db.flags S) && (((decode_insn db S).2.ops 0).addr == T ||
        ((decode_insn db S).2.ops 0).value == T)) = false := by
      rw [Bool.eq_false_iff]
      intro h
      apply h0
      simpa using h
    have hm' : (((decode_insn db S).2.ops 1).addr == T ||
        ((decode_insn db S).2.ops 1).value == T) = true := by
      simpa using hm
    simp only [del_dref_ex, del_dref, msg, record, op_num, get_flags, decode_insn] at h0' hm' ⊢
    simp [hc, h0', ho, hm', set_op_type]
  · intro hc h0 h1
    have h0' : (is_off0 (db.flags S) && (((decode_insn db S).2.ops 0).addr == T ||
        ((decode_insn db S).2.ops 0).value == T)) = false := by
      rw [Bool.eq_false_iff]
      intro h
      apply h0
      simpa using h
    have h1' : (is_off1 (db.flags S) && (((decode_insn db S).2.ops 1).addr == T ||
        ((decode_insn db S).2.ops 1).value == T)) = false := by
      rw [Bool.eq_false_iff]
      intro h
      apply h1
      simpa using h
    simp only [del_dref_ex, del_dref, msg, record, op_num, get_flags, decode_insn] at h0' h1' ⊢
    simp [hc, h0', h1']
  · intro hc
    simp only [del_dref_ex, del_dref, msg, record, op_num, get_flags, decode_insn]
    simp [hc, set_op_type]

theorem del_dref_ex_repairs_offset_operand_witness :
    (is_code (db_xrefs.flags 0x3000) = true ∧ is_off0 (db_xrefs.flags 0x3000) = true ∧
      ((decode_insn db_xrefs 0x3000).2.ops 0).value = 0x1010 ∧
      ((del_dref_ex db_xrefs 0x3000 0x1010).flags 0x3000 =
          { db_xrefs.flags 0x3000 with op0 := op_type.num } ∧
        (del_dref_ex db_xrefs 0x3000 0x1010).log = db_xrefs.log ++
          [Call.del_dref 0x3000 0x1010, Call.msg (Message.removed_bad_xref 0x3000 0x1010),
           Call.op_num 0x3000 0])) ∧
    (is_code (db_data_source.flags 0x3000) = false ∧
      ((del_dref_ex db_data_source 0x3000 0x1010).flags 0x3000 =
          { db_data_source.flags 0x3000 with op0 := op_type.num } ∧
        (del_dref_ex db_data_source 0x3000 0x1010).log = db_data_source.log ++
          [Call.del_dref 0x3000 0x1010, Call.msg (Message.removed_bad_xref 0x3000 0x1010),
           Call.op_num 0x3000 0])) :=
  ⟨⟨by decide, by decide, by decide,
    (del_dref_ex_repairs_offset_operand db_xrefs 0x3000 0x1010).2.1
      (by decide) (by decide) (Or.inr (by decide))⟩,
   ⟨by decide,
    (del_dref_ex_repairs_offset_operand db_data_source 0x3000 0x1010).2.2.2.2 (by decide)⟩⟩

/-- C10, as stated, fails: the mnemonic of the interrupt return does not begin with
the return prefix, and is_retn_insn is false on it. -/
theorem is_retn_insn_iret_false :
    is_retn_insn (mk_insn 0 ['i', 'r', 'e', 't']) = false ∧
    strstr ['i', 'r', 'e', 't'] ['r', 'e', 't'] = some 1 := by
  decide

/-- C10, amended: is_retn_insn is true exactly when the canonical mnemonic begins
with the letters r, e, t; it is true for the near return and the far return and
false for the interrupt return, whose mnemonic begins with i. -/
theorem is_retn_insn_iff_ret_first (ins : insn_t) :
    (is_retn_insn ins = true ↔ ∃ rest, ins.get_canon_mnem = 'r' :: 'e' :: 't' :: rest) ∧
    is_retn_insn { ins with canon_mnem := ['r', 'e', 't', 'n'] } = true ∧
    is_retn_insn { ins with canon_mnem := ['r', 'e', 't', 'f'] } = true ∧
    is_retn_insn { ins with canon_mnem := ['i', 'r', 'e', 't'] } = false := by
  refine ⟨?_, rfl, rfl, rfl⟩
  unfold is_retn_insn
  simp only [beq_iff_eq]
  rw [strstr_eq_zero_iff, starts_with_ret_iff]

/-! ### Operand tags -/

theorem byte_at_swap32 (v : Nat) :
    byte_at (swap32 v) 0 = v / 0x1000000 % 256 ∧ byte_at (swap32 v) 1 = v / 0x10000 % 256 ∧
    byte_at (swap32 v) 2 = v / 0x100 % 256 ∧ byte_at (swap32 v) 3 = v % 256 := by
  have key : ∀ a b c d : Nat, a < 256 → b < 256 → c < 256 → d < 256 →
      (a * 0x1000000 + b * 0x10000 + c * 0x100 + d) / 1 % 256 = d ∧
      (a * 0x1000000 + b * 0x10000 + c * 0x100 + d) / 256 % 256 = c ∧
      (a * 0x1000000 + b * 0x10000 + c * 0x100 + d) / 65536 % 256 = b ∧
      (a * 0x1000000 + b * 0x10000 + c * 0x100 + d) / 16777216 % 256 = a := by
    intro a b c d ha hb hc hd
    refine ⟨?_, ?_, ?_, ?_⟩ <;> omega
  have h := key (v % 256) (v / 0x100 % 256) (v / 0x10000 % 256) (v / 0x1000000 % 256)
    (Nat.mod_lt _ (by norm_num)) (Nat.mod_lt _ (by norm_num)) (Nat.mod_lt _ (by norm_num))
    (Nat.mod_lt _ (by norm_num))
  simp only [byte_at, swap32]
  norm_num at h ⊢
  exact h

theorem graphic_ne_zero (c : Nat) (h : (isalnum c || ispunct c) = true) : c ≠ 0 := by
  rintro rfl
  simp [isalnum, ispunct] at h

/-- C7, as stated, fails: for the value 0x41424344 the detector does find the four
characters A, B, C, D and no float comment, but the value read as a 32-bit float
is about 12.14 (between 12 and 13), inside the open interval from 0.0001 to 10000,
so the detector returns without retyping the operand and without logging. -/
theorem op_tag_ABCD_is_a_plausible_float :
    tag_scan (swap32 0x41424344) 4 0 = 4 ∧
    tag_text (swap32 0x41424344) = ['A', 'B', 'C', 'D'] ∧
    strcmp_eq (get_cmt db_tag (mov_imm 0x41424344).ea) FLOAT_HINT = false ∧
    float_abs 0x41424344 = some (some (0xC24344 * 2 ^ 129)) ∧
    12 * 2 ^ 149 < 0xC24344 * 2 ^ 129 ∧ 0xC24344 * 2 ^ 129 < 13 * 2 ^ 149 ∧
    (float_gt_0_0001 0x41424344 && float_lt_10000 0x41424344) = true ∧
    (detect_and_make_op_tag db_tag (mov_imm 0x41424344)).log = [] ∧
    ((detect_and_make_op_tag db_tag (mov_imm 0x41424344)).flags 0x1000).op0 = op_type.num := by
  decide

/-- C7, amended: when the four bytes of the first operand's 32-bit raw value are all
alphanumeric or punctuation, the instruction carries no comment reading exactly
float, and the value's magnitude as a 32-bit float is not strictly between 0.0001
and 10000, detect_and_make_op_tag retypes operand 0 as a character literal and
logs the tag made of the value's bytes from most to least significant.  The value
0x41424344 is not such a value: on it the detector changes nothing. -/
theorem op_tag_detected_outside_float_range (db : Database) (ins : insn_t) :
    ((ins.ops 0).value = 0x41424344 → detect_and_make_op_tag db ins = db) ∧
    ((ins.ops 0).value < EA_SPACE →
     (∀ i, i < 4 → (isalnum (byte_at (ins.ops 0).value i) ||
                    ispunct (byte_at (ins.ops 0).value i)) = true) →
     get_cmt db ins.ea ≠ FLOAT_HINT →
     (float_gt_0_0001 (ins.ops 0).value && float_lt_10000 (ins.ops 0).value) = false →
     detect_and_make_op_tag db ins =
       msg (op_chr db ins.ea 0) (Message.found_tag (tag_of (ins.ops 0).value) ins.ea) ∧
     ((detect_and_make_op_tag db ins).flags ins.ea).op0 = op_type.chr) := by
  constructor
  · intro hv
    unfold detect_and_make_op_tag
    rw [hv]
    have h1 : tag_scan (swap32 (0x41424344 % EA_SPACE)) 4 0 = 4 := by decide
    have h2 : (float_gt_0_0001 (0x41424344 % EA_SPACE) &&
        float_lt_10000 (0x41424344 % EA_SPACE)) = true := by decide
    simp only [h1, h2, if_true]
    split_ifs <;> rfl
  · intro hv hb hc hf
    have hmod : (ins.ops 0).value % EA_SPACE = (ins.ops 0).value := Nat.mod_eq_of_lt hv
    obtain ⟨b0, b1, b2, b3⟩ := byte_at_swap32 (ins.ops 0).value
    have h0 : (isalnum ((ins.ops 0).value / 0x1000000 % 256) ||
        ispunct ((ins.ops 0).value / 0x1000000 % 256)) = true := by
      have := hb 3 (by omega)
      simpa [byte_at] using this
    have h1 : (isalnum ((ins.ops 0).value / 0x10000 % 256) ||
        ispunct ((ins.ops 0).value / 0x10000 % 256)) = true := by
      have := hb 2 (by omega)
      simpa [byte_at] using this
    have h2 : (isalnum ((ins.ops 0).value / 0x100 % 256) ||
        ispunct ((ins.ops 0).value / 0x100 % 256)) = true := by
      have := hb 1 (by omega)
      simpa [byte_at] using this
    have h3 : (isalnum ((ins.ops 0).value % 256) ||
        ispunct ((ins.ops 0).value % 256)) = true := by
      have := hb 0 (by omega)
      simpa [byte_at] using this
    have hscan : tag_scan (swap32 (ins.ops 0).value) 4 0 = 4 := by
      simp only [tag_scan, b0, b1, b2, b3, h0, h1, h2, h3, if_true]
    have htext : tag_text (swap32 (ins.ops 0).value) = tag_of (ins.ops 0).value := by
      have n0 : ((ins.ops 0).value / 0x1000000 % 256 != 0) = true := by
        simpa using graphic_ne_zero _ h0
      have n1 : ((ins.ops 0).value / 0x10000 % 256 != 0) = true := by
        simpa using graphic_ne_zero _ h1
      have n2 : ((ins.ops 0).value / 0x100 % 256 != 0) = true := by
        simpa using graphic_ne_zero _ h2
      have n3 : ((ins.ops 0).value % 256 != 0) = true := by
        simpa using graphic_ne_zero _ h3
      simp only [tag_text, tag_of, List.map, b0, b1, b2, b3, List.takeWhile, n0, n1, n2, n3]
    have hc' : strcmp_eq (get_cmt db ins.ea) FLOAT_HINT = false := by
      simpa [strcmp_eq] using hc
    have hres : detect_and_make_op_tag db ins =
        msg (op_chr db ins.ea 0) (Message.found_tag (tag_of (ins.ops 0).value) ins.ea) := by
      unfold detect_and_make_op_tag
      simp only [hmod, hscan, hc', hf, htext, if_true, Bool.false_eq_true, if_false]
    refine ⟨hres, ?_⟩
    rw [hres]
    simp [msg, record, op_chr, set_op_type]

theorem op_tag_detected_outside_float_range_witness :
    ((mov_imm 0x47424344).ops 0).value < EA_SPACE ∧
    (∀ i, i < 4 → (isalnum (byte_at ((mov_imm 0x47424344).ops 0).value i) ||
                   ispunct (byte_at ((mov_imm 0x47424344).ops 0).value i)) = true) ∧
    get_cmt db_tag (mov_imm 0x47424344).ea ≠ FLOAT_HINT ∧
    (float_gt_0_0001 0x47424344 && float_lt_10000 0x47424344) = false ∧
    tag_of 0x47424344 = ['G', 'B', 'C', 'D'] ∧
    (detect_and_make_op_tag db_tag (mov_imm 0x47424344)).log =
      [Call.op_chr 0x1000 0, Call.msg (Message.found_tag ['G', 'B', 'C', 'D'] 0x1000)] ∧
    (detect_and_make_op_tag db_tag (mov_imm 0x47424344) =
       msg (op_chr db_tag (mov_imm 0x47424344).ea 0)
         (Message.found_tag (tag_of ((mov_imm 0x47424344).ops 0).value)
           (mov_imm 0x47424344).ea) ∧
     ((detect_and_make_op_tag db_tag (mov_imm 0x47424344)).flags
       (mov_imm 0x47424344).ea).op0 = op_type.chr) :=
  ⟨by decide, by decide, by decide, by decide, by decide, by decide,
   (op_tag_detected_outside_float_range db_tag (mov_imm 0x47424344)).2
     (by decide) (by decide) (by decide) (by decide)⟩

/-! ### Alignment -/

theorem land_mask16 (x : Nat) (hx : x < 0x100000000) : x &&& 0xFFFFFFF0 = x / 16 * 16 := by
  apply Nat.eq_of_testBit_eq
  intro i
  have e1 : (0xFFFFFFF0 : Nat) = 2 ^ 4 * (2 ^ 28 - 1) := by norm_num
  have e2 : x / 16 * 16 = 2 ^ 4 * (x >>> 4) := by
    rw [Nat.shiftRight_eq_div_pow]; norm_num; ring
  rw [Nat.testBit_land, e1, e2, Nat.testBit_mul_pow_two, Nat.testBit_mul_pow_two,
    Nat.testBit_two_pow_sub_one, Nat.testBit_shiftRight]
  by_cases h4 : i ≥ 4
  · have : 4 + (i - 4) = i := by omega
    rw [this]
    by_cases h32 : i < 32
    · have : i - 4 < 28 := by omega
      simp [h4, this]
    · have hlt : x < 2 ^ i := lt_of_lt_of_le hx (by
        have : (0x100000000 : Nat) = 2 ^ 32 := by norm_num
        rw [this]
        exact Nat.pow_le_pow_right (by norm_num) (by omega))
      simp [Nat.testBit_lt_two_pow hlt]
  · simp [h4]

theorem land_15 (x : Nat) : x &&& 0xF = x % 16 := by
  have := Nat.and_pow_two_sub_one_eq_mod x 4
  simpa using this

/-- Where the boundary is a 32-bit address, the masking expression of the source
computes it. -/
theorem align16_up_eq_next16 (A : ea_t) (h : next16 A < EA_SPACE) :
    align16_up A = next16 A := by
  unfold next16 EA_SPACE at h
  unfold align16_up next16 EA_SPACE
  have h1 : A + 15 < 0x100000000 := by unfold ea_t at *; omega
  rw [Nat.mod_eq_of_lt h1, land_mask16 _ h1]

theorem PaddingRun.start_lt {db : Database} {N pos : ea_t} {starts : List ea_t}
    (h : PaddingRun db N pos starts) : pos < N := by
  cases h with
  | last _ h1 => exact h1
  | step _ _ h1 => exact h1

theorem is_align16_loop_of_run (db : Database) (N : ea_t) (hN : N < EA_SPACE)
    (pos : ea_t) (starts : List ea_t) (hrun : PaddingRun db N pos starts) :
    ∀ fuel, N - pos < fuel → (∀ p ∈ starts, is_jmp_table db p = false) →
      is_align16_loop db N fuel pos = some (is_align_insn db N == 0) := by
  induction hrun with
  | last pos hlt hdec hpad hend =>
    intro fuel hfuel hjt
    cases fuel with
    | zero => exact absurd hfuel (Nat.not_lt_zero _)
    | succ k =>
      have hj := hjt pos (by simp)
      have hmod : (pos + (decode_insn db pos).1) % EA_SPACE = N := by
        rw [hend]; exact Nat.mod_eq_of_lt hN
      simp [is_align16_loop, hdec, hpad, hj, hmod]
  | step pos rest hlt hdec hpad hrest ih =>
    intro fuel hfuel hjt
    cases fuel with
    | zero => exact absurd hfuel (Nat.not_lt_zero _)
    | succ k =>
      have hj := hjt pos (by simp)
      have hlt' := hrest.start_lt
      have hmod : (pos + (decode_insn db pos).1) % EA_SPACE = pos + (decode_insn db pos).1 :=
        Nat.mod_eq_of_lt (lt_trans hlt' hN)
      have hpos : 0 < (decode_insn db pos).1 := Nat.pos_of_ne_zero hdec
      have hk : N - (pos + (decode_insn db pos).1) < k := by
        unfold ea_t at *
        omega
      have hrec := ih k hk (fun p hp => hjt p (List.mem_cons_of_mem _ hp))
      simp [is_align16_loop, hdec, hpad, hj, hmod, hlt', hrec]

/-- C4, as stated, fails in two ways.  In both databases 0x100D lies outside any
function, the bytes from 0x100D to the boundary 0x1010 decode as three padding
instructions, and the instruction at 0x1010 is not padding.  In the first, the
database detect_and_make_align leaves of the padding database, 0x100D is already
marked as an alignment item of exponent 4; in the second 0x100E is a jump-table
location.  In both is_align16 returns false. -/
theorem is_align16_guards_beyond_padding :
    (get_func db_pad_done 0x100D = none ∧ next16 0x100D = 0x1010 ∧
      PaddingRun db_pad_done 0x1010 0x100D [0x100D, 0x100E, 0x100F] ∧
      is_align_insn db_pad_done 0x1010 = 0 ∧
      is_align (get_flags db_pad_done 0x100D) = true ∧ get_alignment db_pad_done 0x100D = 4 ∧
      is_align16 db_pad_done 0x100D = some false) ∧
    (get_func db_pad_table 0x100D = none ∧
      PaddingRun db_pad_table 0x1010 0x100D [0x100D, 0x100E, 0x100F] ∧
      is_align_insn db_pad_table 0x1010 = 0 ∧
      is_jmp_table db_pad_table 0x100E = true ∧
      is_align16 db_pad_table 0x100D = some false) := by
  refine ⟨⟨by decide, by decide, ?_, by decide, by decide, by decide, by decide⟩,
    ⟨by decide, ?_, by decide, by decide, by decide⟩⟩
  · exact PaddingRun.step 0x100D _ (by decide) (by decide) (by decide)
      (PaddingRun.step 0x100E _ (by decide) (by decide) (by decide)
        (PaddingRun.last 0x100F (by decide) (by decide) (by decide) (by decide)))
  · exact PaddingRun.step 0x100D _ (by decide) (by decide) (by decide)
      (PaddingRun.step 0x100E _ (by decide) (by decide) (by decide)
        (PaddingRun.last 0x100F (by decide) (by decide) (by decide) (by decide)))

/-- C4, amended: let A lie outside any function and not be marked already as an
alignment item of exponent 4, let its next 16-byte boundary N = ceil(A/16)*16 be a
32-bit address, and let the bytes from A up to N decode as a run of padding
instructions ending exactly at N, none of which starts at a jump-table location.
Then is_align16(A) returns, and it returns true if and only if the instruction at N
is not itself a padding instruction. -/
theorem is_align16_iff_boundary_not_padding (db : Database) (A : ea_t) (starts : List ea_t)
    (hN : next16 A < EA_SPACE)
    (hfunc : get_func db A = none)
    (hnew : ¬ (is_align (get_flags db A) = true ∧ get_alignment db A = 4))
    (hrun : PaddingRun db (next16 A) A starts)
    (hjt : ∀ p ∈ starts, is_jmp_table db p = false) :
    (∃ b, is_align16 db A = some b) ∧
    (is_align16 db A = some true ↔ is_align_insn db (next16 A) = 0) := by
  have hlt := hrun.start_lt
  have hA : A % 16 ≠ 0 := by
    unfold next16 ea_t at *
    omega
  have hfuel : next16 A - A < 16 := by
    unfold next16 ea_t at *
    omega
  have hloop := is_align16_loop_of_run db (next16 A) hN A starts hrun 16 hfuel hjt
  have hnew' : (is_align (get_flags db A) && get_alignment db A == 4) = false := by
    rw [Bool.eq_false_iff]
    intro h
    apply hnew
    simpa using h
  have hres : is_align16 db A = some (is_align_insn db (next16 A) == 0) := by
    unfold is_align16
    simp only [hfunc, Option.isSome_none, Bool.false_eq_true, if_false, hnew', land_15, hA,
      align16_up_eq_next16 A hN, hloop]
  rw [hres]
  exact ⟨⟨_, rfl⟩, by simp⟩

theorem is_align16_iff_boundary_not_padding_witness :
    next16 0x100D < EA_SPACE ∧ get_func db_pad 0x100D = none ∧
    ¬ (is_align (get_flags db_pad 0x100D) = true ∧ get_alignment db_pad 0x100D = 4) ∧
    PaddingRun db_pad (next16 0x100D) 0x100D [0x100D, 0x100E, 0x100F] ∧
    (∀ p ∈ [0x100D, 0x100E, 0x100F], is_jmp_table db_pad p = false) ∧
    ((∃ b, is_align16 db_pad 0x100D = some b) ∧
     (is_align16 db_pad 0x100D = some true ↔ is_align_insn db_pad (next16 0x100D) = 0)) :=
  have hrun : PaddingRun db_pad (next16 0x100D) 0x100D [0x100D, 0x100E, 0x100F] :=
    PaddingRun.step 0x100D _ (by decide) (by decide) (by decide)
      (PaddingRun.step 0x100E _ (by decide) (by decide) (by decide)
        (PaddingRun.last 0x100F (by decide) (by decide) (by decide) (by decide)))
  ⟨by decide, by decide, by decide, hrun, by decide,
   is_align16_iff_boundary_not_padding db_pad 0x100D [0x100D, 0x100E, 0x100F]
     (by decide) (by decide) (by decide) hrun (by decide)⟩

/-- On the padding database is_align16 is true at the start of the run and false
one byte before the run, where the byte does not decode. -/
theorem is_align16_example :
    is_align16 db_pad 0x100D = some true ∧ is_align16 db_pad 0x100C = some false := by
  decide

theorem create_align_accepted (db : Database) (ea : ea_t) (length alignment : Nat)
    (h : (create_align db ea length alignment).1 = true) :
    is_align (get_flags (create_align db ea length alignment).2 ea) = true ∧
    get_alignment (create_align db ea length alignment).2 ea = alignment := by
  unfold create_align at h ⊢
  by_cases hacc : db.accept db.log (Call.create_align ea length alignment) = true
  · simp [hacc, record, get_flags, get_alignment, is_align, is_data]
  · simp [hacc] at h

/-- When detection succeeds and the host accepts the first request to create the
alignment item, `detect_and_make_align` leaves the address flagged as an alignment
item of exponent 4. -/
theorem detect_and_make_align_creates (db : Database) (A : ea_t)
    (hdet : is_align16 db A = some true)
    (hacc : db.accept (db.log ++ [Call.msg (Message.creating_alignment A)])
      (Call.create_align A ((align16_up A + EA_SPACE - A) % EA_SPACE) 4) = true) :
    ∃ db1, detect_and_make_align db A = some db1 ∧
      is_align (get_flags db1 A) = true ∧ get_alignment db1 A = 4 := by
  have h1 : (create_align (msg db (Message.creating_alignment A)) A
      ((align16_up A + EA_SPACE - A) % EA_SPACE) 4).1 = true := by
    simp only [create_align, msg, record]
    simp [hacc]
  refine ⟨(create_align (msg db (Message.creating_alignment A)) A
      ((align16_up A + EA_SPACE - A) % EA_SPACE) 4).2, ?_, create_align_accepted _ _ _ _ h1⟩
  unfold detect_and_make_align
  simp [hdet, h1]

/-- C8: at an address that is flagged as an alignment item of exponent 4, which is
the state a detect_and_make_align that created the item leaves, a call of
detect_and_make_align finds is_align16 false and returns the database as it was:
no alignment item is created, no cross-reference deleted, no item undefined and
nothing logged. -/
theorem detect_and_make_align_again_is_noop (db : Database) (A : ea_t)
    (hflag : is_align (get_flags db A) = true) (hdeg : get_alignment db A = 4) :
    is_align16 db A = some false ∧ detect_and_make_align db A = some db := by
  have h : is_align16 db A = some false := by
    unfold is_align16
    simp only [hflag, hdeg, beq_self_eq_true, Bool.and_self, if_true]
    split_ifs <;> rfl
  refine ⟨h, ?_⟩
  unfold detect_and_make_align
  simp [h]

theorem detect_and_make_align_again_is_noop_witness :
    detect_and_make_align db_pad 0x100D = some db_pad_done ∧
    db_pad_done.log = [Call.msg (Message.creating_alignment 0x100D),
                       Call.create_align 0x100D 3 4] ∧
    is_align (get_flags db_pad_done 0x100D) = true ∧ get_alignment db_pad_done 0x100D = 4 ∧
    (is_align16 db_pad_done 0x100D = some false ∧
     detect_and_make_align db_pad_done 0x100D = some db_pad_done) :=
  ⟨rfl, by decide, by decide, by decide,
   detect_and_make_align_again_is_noop db_pad_done 0x100D (by decide) (by decide)⟩

/-- Two calls in a row where the host turns down the first request: the first call
deletes the reference into the padding, undefines the range and creates the item
on the second request; the second call adds nothing to the log. -/
theorem detect_and_make_align_retry_example :
    (detect_and_make_align db_pad_busy 0x100D).map (fun d => (d.log, d.drefs)) =
      some ([Call.msg (Message.creating_alignment 0x100D),
             Call.create_align 0x100D 3 4,
             Call.del_dref 0x100E 0x100D,
             Call.msg (Message.removed_bad_xref 0x100E 0x100D),
             Call.op_num 0x100E 0,
             Call.del_items 0x100D 3,
             Call.create_align 0x100D 3 4], []) ∧
    ((detect_and_make_align db_pad_busy 0x100D).bind
        (fun d => detect_and_make_align d 0x100D)).map (fun d => (d.log, d.drefs)) =
      (detect_and_make_align db_pad_busy 0x100D).map (fun d => (d.log, d.drefs)) := by
  decide

/-! ### Function boundary repair -/

theorem deref_func_start (db : Database) (func : func_t) :
    (deref_func db func).start_ea = func.start_ea := by
  unfold deref_func
  cases h : db.funcs.find? (fun f => f.start_ea == func.start_ea) with
  | none => rfl
  | some f =>
    have := @List.find?_some _ (fun f => f.start_ea == func.start_ea) f db.funcs h
    simpa using this

theorem find_start_after_merge (l : List func_t) (s e g : ea_t) (hs : s < e)
    (h : l.find? (fun f => f.start_ea == s) = some ⟨s, e⟩) :
    ((l.filter (fun f => !func_contains f e)).map
      (fun f => if func_contains f s then { f with end_ea := g } else f)).find?
      (fun f => f.start_ea == s) = some ⟨s, g⟩ := by
  induction l with
  | nil => simp at h
  | cons x t ih =>
    by_cases hx : x.start_ea = s
    · have hxe : x = ⟨s, e⟩ := by
        simpa [List.find?_cons, hx] using h
      subst hxe
      have h1 : func_contains ⟨s, e⟩ e = false := by simp [func_contains]
      have h2 : func_contains ⟨s, e⟩ s = true := by simp [func_contains, hs]
      simp [List.filter_cons, h1, h2, List.find?_cons]
    · have ht : t.find? (fun f => f.start_ea == s) = some ⟨s, e⟩ := by
        simpa [List.find?_cons, hx] using h
      have := ih ht
      by_cases hc : func_contains x e = true
      · simpa [List.filter_cons, hc] using this
      · by_cases hcs : func_contains x s = true
        · simpa [List.filter_cons, hc, hcs, List.find?_cons, hx] using this
        · simpa [List.filter_cons, hc, hcs, List.find?_cons, hx] using this

theorem no_start_after_merge (l : List func_t) (s e g : ea_t) (hs : s < e) (f : func_t)
    (hf : f ∈ (l.filter (fun f => !func_contains f e)).map
      (fun f => if func_contains f s then { f with end_ea := g } else f))
    (hc : func_contains f e = true) : f.start_ea ≠ e := by
  simp only [List.mem_map, List.mem_filter] at hf
  obtain ⟨f0, ⟨_, hne⟩, hf0⟩ := hf
  by_cases hcs : func_contains f0 s = true
  · simp only [hcs, if_true] at hf0
    subst hf0
    simp only [func_contains, Bool.and_eq_true, decide_eq_true_eq] at hcs
    intro habs
    simp only at habs
    have := hcs.1
    unfold ea_t at *
    omega
  · have hf0' : f0 = f := by simpa [hcs] using hf0
    subst hf0'
    simp [hc] at hne

/-- C5: a function F from s to e that does not end validly is followed, with no
gap, by the function G from e to g, and the host accepts deleting G and setting the
end of F.  Then one pass through the loop body of extend_bad_function_end ends with
continue after the four requests del_func(e), the message, del_global_name(e) and
set_func_end(s, g); F then spans s to g, G is no longer a function of the database,
and a function lookup at e yields no function that starts at e. -/
theorem absorb_next_merges (db : Database) (s e g : ea_t)
    (hF : db.funcs.find? (fun f => f.start_ea == s) = some ⟨s, e⟩)
    (hse : s < e) (heg : e < g)
    (htrunc : db.func_does_end ⟨s, e⟩ = false)
    (hnext : get_next_func db s = some ⟨e, g⟩)
    (hdel : db.accept db.log (Call.del_func e) = true)
    (hset : db.accept (db.log ++ [Call.del_func e,
        Call.msg (Message.removed_bad_function e), Call.del_global_name e])
      (Call.set_func_end s g) = true) :
    ∃ db', extend_attempt db ⟨s, e⟩ = Step.again db' [] ∧
      (∀ n passes, extend_loop (n + 1) db ⟨s, e⟩ passes =
        extend_loop n db' ⟨s, e⟩ (passes ++ [[]])) ∧
      db'.log = db.log ++ [Call.del_func e, Call.msg (Message.removed_bad_function e),
        Call.del_global_name e, Call.set_func_end s g] ∧
      deref_func db' ⟨s, e⟩ = ⟨s, g⟩ ∧
      (⟨e, g⟩ : func_t) ∉ db'.funcs ∧
      ∀ f, get_func db' e = some f → f.start_ea ≠ e := by
  have hder : deref_func db ⟨s, e⟩ = ⟨s, e⟩ := by
    simp [deref_func, hF]
  have hd1 : (del_func db e).1 = true := by simp [del_func, hdel]
  have hs1 : (set_func_end (del_global_name (msg (del_func db e).2
      (Message.removed_bad_function e)) e) s g).1 = true := by
    simp [set_func_end, del_global_name, msg, record, del_func, hdel, hset]
  have hatt : extend_attempt db ⟨s, e⟩ = Step.again (set_func_end (del_global_name
      (msg (del_func db e).2 (Message.removed_bad_function e)) e) s g).2 [] := by
    unfold extend_attempt
    simp only [deref_func_start, hnext, hder, beq_self_eq_true, if_true, hd1, hs1]
  have hfuncs : (set_func_end (del_global_name (msg (del_func db e).2
      (Message.removed_bad_function e)) e) s g).2.funcs =
      (db.funcs.filter (fun f => !func_contains f e)).map
        (fun f => if func_contains f s then { f with end_ea := g } else f) := by
    simp [set_func_end, del_global_name, msg, record, del_func, hdel, hset]
  refine ⟨_, hatt, ?_, ?_, ?_, ?_, ?_⟩
  · intro n passes
    rw [extend_loop]
    simp only [hder, htrunc, Bool.false_eq_true, if_false, hatt]
  · simp [set_func_end, del_global_name, msg, record, del_func, hdel, hset]
  · unfold deref_func
    rw [hfuncs, find_start_after_merge db.funcs s e g hse hF]
    rfl
  · rw [hfuncs]
    intro hmem
    exact no_start_after_merge db.funcs s e g hse ⟨e, g⟩ hmem
      (by simp [func_contains, heg]) rfl
  · intro f hf
    unfold get_func at hf
    rw [hfuncs] at hf
    exact no_start_after_merge db.funcs s e g hse f (List.mem_of_find?_eq_some hf)
      (@List.find?_some _ (fun f => func_contains f e) f _ hf)

theorem absorb_next_merges_witness :
    db_two_funcs.funcs.find? (fun f => f.start_ea == 0x1000) = some ⟨0x1000, 0x1010⟩ ∧
    db_two_funcs.func_does_end ⟨0x1000, 0x1010⟩ = false ∧
    get_next_func db_two_funcs 0x1000 = some ⟨0x1010, 0x1030⟩ ∧
    ∃ db', extend_attempt db_two_funcs ⟨0x1000, 0x1010⟩ = Step.again db' [] ∧
      (∀ n passes, extend_loop (n + 1) db_two_funcs ⟨0x1000, 0x1010⟩ passes =
        extend_loop n db' ⟨0x1000, 0x1010⟩ (passes ++ [[]])) ∧
      db'.log = db_two_funcs.log ++ [Call.del_func 0x1010,
        Call.msg (Message.removed_bad_function 0x1010),
        Call.del_global_name 0x1010, Call.set_func_end 0x1000 0x1030] ∧
      deref_func db' ⟨0x1000, 0x1010⟩ = ⟨0x1000, 0x1030⟩ ∧
      (⟨0x1010, 0x1030⟩ : func_t) ∉ db'.funcs ∧
      ∀ f, get_func db' 0x1010 = some f → f.start_ea ≠ 0x1010 :=
  ⟨by decide, by decide, by decide,
   absorb_next_merges db_two_funcs 0x1000 0x1010 0x1030 (by decide) (by decide) (by decide)
     (by decide) (by decide) (by decide) (by decide)⟩

/-- The whole repair on the two-function database: one pass, the merged function
ends validly, and its end is returned. -/
theorem extend_bad_function_end_example :
    (extend_bad_function_end db_two_funcs ⟨0x1000, 0x1010⟩).outcome =
      Outcome.returned 0x1030 ∧
    (extend_bad_function_end db_two_funcs ⟨0x1000, 0x1010⟩).db.funcs = [⟨0x1000, 0x1030⟩] ∧
    (extend_bad_function_end db_two_funcs ⟨0x1000, 0x1010⟩).passes = [[]] := by
  decide

theorem forward_scan_decodes_le (db : Database) :
    ∀ (n : Nat) (p : idaplace_t) (seen : List ea_t),
      (forward_scan db (n + 1) p seen).2.2.length ≤ seen.length + (n + 1) := by
  intro n
  induction n with
  | zero =>
    intro p seen
    simp [forward_scan]
  | succ k ih =>
    intro p seen
    rw [forward_scan]
    split_ifs
    · have := ih (db.place_next p) (seen ++ [p.ea])
      simp only [List.length_append, List.length_singleton] at this
      omega
    · simp only [List.length_append, List.length_singleton]
      omega

theorem scan_and_set_end_decoded (db : Database) (func : func_t) :
    (scan_and_set_end db func).decoded.length ≤ 100 := by
  have h := forward_scan_decodes_le db 99 ⟨(deref_func db func).end_ea, 0⟩ []
  simp only [List.length_nil, Nat.zero_add] at h
  unfold scan_and_set_end
  simp only
  split_ifs <;> exact h

theorem extend_attempt_decoded (db : Database) (func : func_t) :
    (extend_attempt db func).decoded.length ≤ 100 := by
  unfold extend_attempt
  cases get_next_func db (deref_func db func).start_ea with
  | none => simp [Step.decoded]
  | some nf =>
    simp only
    by_cases h1 : (nf.start_ea == (deref_func db func).end_ea) = true
    · simp only [h1, if_true]
      by_cases h2 : (del_func db nf.start_ea).1 = true
      · simp only [h2, if_true]
        split_ifs
        · simp [Step.decoded]
        · exact scan_and_set_end_decoded _ _
      · simp only [h2, if_false]
        exact scan_and_set_end_decoded _ _
    · simp only [h1, if_false]
      exact scan_and_set_end_decoded _ _

theorem extend_loop_bounded (func : func_t) :
    ∀ (n : Nat) (db : Database) (passes : List (List ea_t)),
      (extend_loop n db func passes).passes.length ≤ passes.length + n ∧
      (∀ l ∈ (extend_loop n db func passes).passes, l ∈ passes ∨ l.length ≤ 100) ∧
      ((extend_loop n db func passes).outcome = Outcome.null_deref ∨
       (extend_loop n db func passes).outcome = Outcome.returned BADADDR ∨
       (extend_loop n db func passes).outcome =
         Outcome.returned (deref_func (extend_loop n db func passes).db func).end_ea) := by
  intro n
  induction n with
  | zero =>
    intro db passes
    rw [extend_loop]
    exact ⟨by simp, fun l hl => Or.inl hl, Or.inr (Or.inr rfl)⟩
  | succ k ih =>
    intro db passes
    rw [extend_loop]
    split_ifs
    · exact ⟨by simp, fun l hl => Or.inl hl, Or.inr (Or.inr rfl)⟩
    · have hdec := extend_attempt_decoded db func
      cases hstep : extend_attempt db func with
      | again db' decoded =>
        rw [hstep] at hdec
        simp only [Step.decoded] at hdec
        simp only
        obtain ⟨h1, h2, h3⟩ := ih db' (passes ++ [decoded])
        refine ⟨?_, ?_, h3⟩
        · simp only [List.length_append, List.length_singleton] at h1
          omega
        · intro l hl
          rcases h2 l hl with h | h
          · rcases List.mem_append.1 h with h' | h'
            · exact Or.inl h'
            · right
              rw [List.mem_singleton.1 h']
              exact hdec
          · exact Or.inr h
      | abort db' decoded =>
        rw [hstep] at hdec
        simp only [Step.decoded] at hdec
        simp only
        refine ⟨by simp, ?_, by simp⟩
        intro l hl
        rcases List.mem_append.1 hl with h' | h'
        · exact Or.inl h'
        · right
          rw [List.mem_singleton.1 h']
          exact hdec
      | null_deref db' =>
        simp only
        refine ⟨by simp, ?_, by simp⟩
        intro l hl
        rcases List.mem_append.1 hl with h' | h'
        · exact Or.inl h'
        · right
          rw [List.mem_singleton.1 h']
          simp

/-- The bounds of `extend_bad_function_end` that hold on every database: at most
5 passes through the loop body, at most 100 decodes in each forward scan, and the
call ends by returning `BADADDR`, by returning `func->end_ea`, or by reading
through a null `next_func`. -/
theorem extend_bad_function_end_bounded (db : Database) (func : func_t) :
    (extend_bad_function_end db func).passes.length ≤ 5 ∧
    (∀ l ∈ (extend_bad_function_end db func).passes, l.length ≤ 100) ∧
    ((extend_bad_function_end db func).outcome = Outcome.null_deref ∨
     (extend_bad_function_end db func).outcome = Outcome.returned BADADDR ∨
     (extend_bad_function_end db func).outcome =
       Outcome.returned (deref_func (extend_bad_function_end db func).db func).end_ea) := by
  obtain ⟨h1, h2, h3⟩ := extend_loop_bounded func 5 db []
  refine ⟨by simpa using h1, ?_, h3⟩
  intro l hl
  rcases h2 l hl with h | h
  · simp at h
  · exact h

/-- C6 fails on the code: the only function of the database does not end validly,
so the loop body runs; get_next_func finds no following function and the body
reads next_func->start_ea through the null pointer.  The call returns neither
BADADDR nor an end address. -/
theorem extend_bad_function_end_null_next_func :
    db_last_func.funcs = [⟨0x1000, 0x1010⟩] ∧
    db_last_func.func_does_end ⟨0x1000, 0x1010⟩ = false ∧
    get_next_func db_last_func 0x1000 = none ∧
    (extend_bad_function_end db_last_func ⟨0x1000, 0x1010⟩).outcome = Outcome.null_deref ∧
    (∀ v, (extend_bad_function_end db_last_func ⟨0x1000, 0x1010⟩).outcome ≠
      Outcome.returned v) := by
  refine ⟨by decide, by decide, by decide, by decide, ?_⟩
  intro v h
  have h' : (extend_bad_function_end db_last_func ⟨0x1000, 0x1010⟩).outcome =
      Outcome.null_deref := by decide
  rw [h'] at h
  cases h

/-- C11 fails on the code: when the function does not end validly and no function
follows it, extend_bad_function_end does not go on to the forward scan.  Its first
pass reads next_func->start_ea through the null pointer get_next_func returned:
nothing is decoded, nothing is requested of the database, and no value is
returned. -/
theorem extend_bad_function_end_without_neighbour (db : Database) (func : func_t)
    (htrunc : db.func_does_end (deref_func db func) = false)
    (hnone : get_next_func db func.start_ea = none) :
    extend_attempt db func = Step.null_deref db ∧
    (extend_bad_function_end db func).outcome = Outcome.null_deref ∧
    (extend_bad_function_end db func).passes = [[]] ∧
    (extend_bad_function_end db func).db.log = db.log ∧
    (extend_bad_function_end db func).db.funcs = db.funcs := by
  have hatt : extend_attempt db func = Step.null_deref db := by
    unfold extend_attempt
    rw [deref_func_start, hnone]
  have hrun : extend_bad_function_end db func = ⟨Outcome.null_deref, db, [[]]⟩ := by
    unfold extend_bad_function_end
    rw [extend_loop]
    simp only [htrunc, Bool.false_eq_true, if_false, hatt, List.nil_append]
  refine ⟨hatt, ?_, ?_, ?_, ?_⟩ <;> rw [hrun]

theorem extend_bad_function_end_without_neighbour_witness :
    db_no_neighbour.func_does_end (deref_func db_no_neighbour ⟨0x2000, 0x2010⟩) = false ∧
    get_next_func db_no_neighbour 0x2000 = none ∧
    (scan_and_set_end db_no_neighbour ⟨0x2000, 0x2010⟩).decoded = [0x2010, 0x2011] ∧
    (extend_attempt db_no_neighbour ⟨0x2000, 0x2010⟩ = Step.null_deref db_no_neighbour ∧
     (extend_bad_function_end db_no_neighbour ⟨0x2000, 0x2010⟩).outcome =
       Outcome.null_deref ∧
     (extend_bad_function_end db_no_neighbour ⟨0x2000, 0x2010⟩).passes = [[]] ∧
     (extend_bad_function_end db_no_neighbour ⟨0x2000, 0x2010⟩).db.log =
       db_no_neighbour.log ∧
     (extend_bad_function_end db_no_neighbour ⟨0x2000, 0x2010⟩).db.funcs =
       db_no_neighbour.funcs) :=
  ⟨by decide, by decide, by decide,
   extend_bad_function_end_without_neighbour db_no_neighbour ⟨0x2000, 0x2010⟩
     (by decide) (by decide)⟩

/-- On the database without a neighbour the forward scan, had the first pass
reached it, would have decoded two instructions and moved the end of the function
to `0x2012`, behind the `retn`. -/
theorem scan_and_set_end_example :
    (match scan_and_set_end db_no_neighbour ⟨0x2000, 0x2010⟩ with
      | Step.again d decoded => some (d.funcs, d.log, decoded)
      | _ => none) =
    some ([⟨0x1000, 0x1010⟩, ⟨0x2000, 0x2012⟩], [Call.set_func_end 0x2000 0x2012],
          [0x2010, 0x2011]) := by
  decide

end IdaWax
